import Mathlib

/-! # client-server-api: the quotation server and its client

A shallow embedding of `server/server.go` and `client/client.go`.

* Go strings are modelled as `String` (valid UTF-8 text, a sequence of
  code points); machine durations are `Nat` nanoseconds.
* Every call that leaves the process (opening the database, the HTTP
  round trips, the SQL insert, the file write) takes its outcome from an
  explicit environment record, so each Go function becomes a total function
  of that record and of the state it touches.
* Time is part of those outcomes: an outcome says how long the outside
  takes, and a call made under a context deadline fails when that is longer
  than the deadline.
* `encoding/json` is modelled as far as the two programs use it: the
  scanner that accepts a JSON text, the decoding of a value into the
  `Cotacao` struct and into a `map[string]string`, and the encoder for a
  string map with HTML escaping. Bodies are texts, so bytes that are not
  valid UTF-8 are outside the model.
* The deferred `cancel()` calls and `resp.Body.Close()` change nothing of the
  state modelled here and are left out; `criarTabela` and the `main` of the
  server run before any request and are not modelled.
-/

namespace ClientServerApi

/-! ## JSON values and the scanner of `encoding/json` -/

namespace Json

/-- A JSON value. Numbers keep their literal text. -/
inductive Value where
  | null
  | bool (b : Bool)
  | num (lit : List Char)
  | str (s : String)
  | arr (xs : List Value)
  | obj (ms : List (String × Value))

/-- Result of scanning: a value with the unread input, input that ends
inside the value, or an invalid character. -/
inductive Scan (α : Type) where
  | ok (a : α) (rest : List Char)
  | more
  | bad

/-- Continue a scan with a function of its result. -/
def Scan.bind {α β : Type} (s : Scan α) (f : α → List Char → Scan β) : Scan β :=
  match s with
  | .ok a rest => f a rest
  | .more => .more
  | .bad => .bad

/-- Change the value of a successful scan. -/
def Scan.map {α β : Type} (f : α → β) (s : Scan α) : Scan β :=
  match s with
  | .ok a rest => .ok (f a) rest
  | .more => .more
  | .bad => .bad

/-- Go `isSpace`: blank, tab, carriage return, line feed. -/
def isSpace (c : Char) : Bool :=
  c.toNat = 32 || c.toNat = 9 || c.toNat = 13 || c.toNat = 10

/-- Drop leading white space. -/
def skipSpace : List Char → List Char
  | [] => []
  | c :: cs => if isSpace c then skipSpace cs else c :: cs

/-- Value of a hexadecimal digit, either case. -/
def hexVal (c : Char) : Option Nat :=
  let n := c.toNat
  if 48 ≤ n ∧ n ≤ 57 then some (n - 48)
  else if 97 ≤ n ∧ n ≤ 102 then some (n - 87)
  else if 65 ≤ n ∧ n ≤ 70 then some (n - 55)
  else none

/-- Go `getu4` on the four characters after a backslash and `u`. -/
def hex4 (a b c d : Char) : Option Nat :=
  match hexVal a, hexVal b, hexVal c, hexVal d with
  | some x, some y, some z, some w => some (((x * 16 + y) * 16 + z) * 16 + w)
  | _, _, _, _ => none

/-- One unit of a string literal: a character, or a `\uXXXX` escape. -/
inductive Unit16 where
  | lit (c : Char)
  | esc (n : Nat)

/-- The character a one-letter escape stands for. -/
def escChar (e : Char) : Option Char :=
  let n := e.toNat
  if n = 34 then some (Char.ofNat 34)
  else if n = 92 then some (Char.ofNat 92)
  else if n = 47 then some (Char.ofNat 47)
  else if n = 98 then some (Char.ofNat 8)
  else if n = 102 then some (Char.ofNat 12)
  else if n = 110 then some (Char.ofNat 10)
  else if n = 114 then some (Char.ofNat 13)
  else if n = 116 then some (Char.ofNat 9)
  else none

/-- Outcome of a `\u` escape cut short by the end of the input. -/
def shortHex (cs : List Char) : Scan (List Unit16) :=
  if cs.all (fun c => (hexVal c).isSome) then .more else .bad

/-- Scan a string literal after its opening quote, up to and including the
closing quote (scanner states `stateInString`, `stateInStringEsc`,
`stateInStringEscU...`). -/
def scanString : List Char → Scan (List Unit16)
  | [] => .more
  | c :: cs =>
    if c.toNat = 34 then .ok [] cs
    else if c.toNat = 92 then
      match cs with
      | [] => .more
      | e :: cs1 =>
        if e.toNat = 117 then
          match cs1 with
          | h1 :: h2 :: h3 :: h4 :: cs2 =>
            match hex4 h1 h2 h3 h4 with
            | some n => (scanString cs2).map (fun us => Unit16.esc n :: us)
            | none => .bad
          | short => shortHex short
        else
          match escChar e with
          | some x => (scanString cs1).map (fun us => Unit16.lit x :: us)
          | none => .bad
    else if c.toNat < 32 then .bad
    else (scanString cs).map (fun us => Unit16.lit c :: us)

/-- The rune of a lone `\u` escape: surrogates become U+FFFD. -/
def runeOf (n : Nat) : Char :=
  if 0xD800 ≤ n ∧ n < 0xE000 then Char.ofNat 0xFFFD else Char.ofNat n

/-- Go `unquote` on scanned units, left to right. `pending` holds a high
surrogate escape whose partner has not been seen yet: a low surrogate escape
right after it joins it into one code point, anything else turns it into
U+FFFD. -/
def unquoteFrom (pending : Option Nat) : List Unit16 → List Char
  | [] =>
    match pending with
    | some _ => [Char.ofNat 0xFFFD]
    | none => []
  | .lit c :: r =>
    match pending with
    | some _ => Char.ofNat 0xFFFD :: c :: unquoteFrom none r
    | none => c :: unquoteFrom none r
  | .esc n :: r =>
    match pending with
    | some hi =>
      if 0xDC00 ≤ n ∧ n < 0xE000 then
        Char.ofNat ((hi - 0xD800) * 1024 + (n - 0xDC00) + 0x10000) :: unquoteFrom none r
      else if 0xD800 ≤ n ∧ n < 0xDC00 then Char.ofNat 0xFFFD :: unquoteFrom (some n) r
      else Char.ofNat 0xFFFD :: runeOf n :: unquoteFrom none r
    | none =>
      if 0xD800 ≤ n ∧ n < 0xDC00 then unquoteFrom (some n) r
      else runeOf n :: unquoteFrom none r

/-- The text of a scanned string literal. -/
def unquoteUnits (us : List Unit16) : String :=
  String.mk (unquoteFrom none us)

/-- A decimal digit. -/
def isDigit (c : Char) : Bool :=
  48 ≤ c.toNat && c.toNat ≤ 57

/-- Split off the leading decimal digits. -/
def spanDigits : List Char → List Char × List Char
  | [] => ([], [])
  | c :: cs =>
    if isDigit c then (c :: (spanDigits cs).1, (spanDigits cs).2) else ([], c :: cs)

/-- A run of at least one digit, as the scanner demands after a decimal
point and in an exponent (`stateDot`, `stateESign`). -/
def scanDigits1 (cs : List Char) : Scan (List Char) :=
  match spanDigits cs with
  | ([], []) => .more
  | ([], _ :: _) => .bad
  | (d :: ds, rest) => .ok (d :: ds) rest

/-- Optional exponent of a number (`stateE`, `stateESign`, `stateE0`). -/
def scanExp (acc : List Char) : List Char → Scan (List Char)
  | [] => .ok acc []
  | e :: r =>
    if e.toNat = 101 ∨ e.toNat = 69 then
      match r with
      | [] => .more
      | s :: r1 =>
        if s.toNat = 43 ∨ s.toNat = 45 then
          (scanDigits1 r1).map (fun ds => acc ++ e :: s :: ds)
        else (scanDigits1 r).map (fun ds => acc ++ e :: ds)
    else .ok acc (e :: r)

/-- Optional fraction of a number (`stateDot`, `stateDot0`), then the
exponent. -/
def scanFrac (acc : List Char) : List Char → Scan (List Char)
  | [] => .ok acc []
  | p :: r =>
    if p.toNat = 46 then (scanDigits1 r).bind (fun ds r1 => scanExp (acc ++ p :: ds) r1)
    else scanExp acc (p :: r)

/-- Integer part of a number starting at digit `d` (`state0`, `state1`). -/
def scanInt (acc : List Char) (d : Char) (r : List Char) : Scan (List Char) :=
  if d.toNat = 48 then scanFrac (acc ++ [d]) r
  else if 49 ≤ d.toNat ∧ d.toNat ≤ 57 then
    scanFrac (acc ++ d :: (spanDigits r).1) (spanDigits r).2
  else .bad

/-- Scan a number whose first character is a minus sign or a digit. -/
def scanNumber : List Char → Scan (List Char)
  | [] => .more
  | c :: r =>
    if c.toNat = 45 then
      match r with
      | [] => .more
      | d :: r1 => scanInt [c] d r1
    else scanInt [] c r

/-- Scan the remaining letters of `true`, `false` or `null`. -/
def scanLiteral (v : Value) : List Char → List Char → Scan Value
  | [], cs => .ok v cs
  | _ :: _, [] => .more
  | e :: es, c :: cs => if c = e then scanLiteral v es cs else .bad

/-- Go `maxNestingDepth`. -/
def maxNestingDepth : Nat := 10000

mutual
/-- Scan one JSON value after optional white space. `depth` counts the
objects and arrays already open; `fuel` bounds the recursion, and `scanText`
gives enough of it. -/
def scanValue : Nat → Nat → List Char → Scan Value
  | 0, _, _ => .bad
  | fuel + 1, depth, cs =>
    match skipSpace cs with
    | [] => .more
    | c :: r =>
      if c.toNat = 123 then
        if maxNestingDepth < depth + 1 then .bad
        else
          match skipSpace r with
          | [] => .more
          | c1 :: r1 =>
            if c1.toNat = 125 then .ok (.obj []) r1
            else (scanMembers fuel (depth + 1) (c1 :: r1)).map Value.obj
      else if c.toNat = 91 then
        if maxNestingDepth < depth + 1 then .bad
        else
          match skipSpace r with
          | [] => .more
          | c1 :: r1 =>
            if c1.toNat = 93 then .ok (.arr []) r1
            else (scanElements fuel (depth + 1) (c1 :: r1)).map Value.arr
      else if c.toNat = 34 then (scanString r).map (fun us => .str (unquoteUnits us))
      else if c.toNat = 45 ∨ isDigit c then (scanNumber (c :: r)).map Value.num
      else if c.toNat = 116 then scanLiteral (.bool true) [Char.ofNat 114, Char.ofNat 117, Char.ofNat 101] r
      else if c.toNat = 102 then
        scanLiteral (.bool false) [Char.ofNat 97, Char.ofNat 108, Char.ofNat 115, Char.ofNat 101] r
      else if c.toNat = 110 then scanLiteral .null [Char.ofNat 117, Char.ofNat 108, Char.ofNat 108] r
      else .bad
/-- Scan the members of an object from a key to the closing brace. -/
def scanMembers : Nat → Nat → List Char → Scan (List (String × Value))
  | 0, _, _ => .bad
  | fuel + 1, depth, cs =>
    match skipSpace cs with
    | [] => .more
    | q :: r =>
      if q.toNat = 34 then
        (scanString r).bind (fun us r1 =>
          match skipSpace r1 with
          | [] => .more
          | colon :: r2 =>
            if colon.toNat = 58 then
              (scanValue fuel depth r2).bind (fun v r3 =>
                match skipSpace r3 with
                | [] => .more
                | s :: r4 =>
                  if s.toNat = 44 then
                    (scanMembers fuel depth r4).map (fun ms => (unquoteUnits us, v) :: ms)
                  else if s.toNat = 125 then .ok [(unquoteUnits us, v)] r4
                  else .bad)
            else .bad)
      else .bad
/-- Scan the elements of an array from a value to the closing bracket. -/
def scanElements : Nat → Nat → List Char → Scan (List Value)
  | 0, _, _ => .bad
  | fuel + 1, depth, cs =>
    (scanValue fuel depth cs).bind (fun v r3 =>
      match skipSpace r3 with
      | [] => .more
      | s :: r4 =>
        if s.toNat = 44 then (scanElements fuel depth r4).map (fun xs => v :: xs)
        else if s.toNat = 93 then .ok [v] r4
        else .bad)
end

/-- Scan the first JSON value of a text. Every call in the recursion
reads at least one character or follows a call that did, so twice the length
of the text is fuel enough. -/
def scanText (cs : List Char) : Scan Value :=
  scanValue (2 * cs.length + 2) 0 cs

/-! ### The encoder: `Encoder.Encode` of a `map[string]string` -/

/-- Lower-case hexadecimal digit, Go `hex[n]`. -/
def hexDigit (n : Nat) : Char :=
  if n < 10 then Char.ofNat (48 + n) else Char.ofNat (87 + n)

/-- Go `htmlSafeSet`: the ASCII characters written as they are when HTML
escaping is on (the default of an `Encoder`). -/
def htmlSafe (n : Nat) : Bool :=
  32 ≤ n && n < 128 && n != 34 && n != 38 && n != 60 && n != 62 && n != 92

/-- Go `appendString` for one character of a valid UTF-8 string, with HTML
escaping. Go 1.22 and later (`go122`) write backspace and form feed as
`\b` and `\f`, earlier releases as `\u0008` and `\u000c`. -/
def quoteChar (go122 : Bool) (c : Char) : List Char :=
  let n := c.toNat
  if n < 128 then
    if htmlSafe n then [c]
    else if n = 92 ∨ n = 34 then [Char.ofNat 92, c]
    else if n = 8 ∧ go122 then [Char.ofNat 92, Char.ofNat 98]
    else if n = 12 ∧ go122 then [Char.ofNat 92, Char.ofNat 102]
    else if n = 10 then [Char.ofNat 92, Char.ofNat 110]
    else if n = 13 then [Char.ofNat 92, Char.ofNat 114]
    else if n = 9 then [Char.ofNat 92, Char.ofNat 116]
    else [Char.ofNat 92, Char.ofNat 117, Char.ofNat 48, Char.ofNat 48,
          hexDigit (n / 16), hexDigit (n % 16)]
  else if n = 0x2028 ∨ n = 0x2029 then
    [Char.ofNat 92, Char.ofNat 117, Char.ofNat 50, Char.ofNat 48, Char.ofNat 50,
     hexDigit (n % 16)]
  else [c]

/-- The characters of a string between the quotes of its JSON literal. -/
def quoteChars (go122 : Bool) : List Char → List Char
  | [] => []
  | c :: cs => quoteChar go122 c ++ quoteChars go122 cs

/-- The JSON literal of a string. -/
def quoteString (go122 : Bool) (s : String) : List Char :=
  Char.ofNat 34 :: (quoteChars go122 s.data ++ [Char.ofNat 34])

/-- Members of an object, separated by commas. -/
def encodeEntries (go122 : Bool) : List (String × String) → List Char
  | [] => []
  | [(k, v)] => quoteString go122 k ++ Char.ofNat 58 :: quoteString go122 v
  | (k, v) :: e :: es =>
    quoteString go122 k ++ Char.ofNat 58 :: quoteString go122 v
      ++ Char.ofNat 44 :: encodeEntries go122 (e :: es)

/-- What `json.NewEncoder(w).Encode(m)` writes for a string map whose
entries are given in key order: the object and a line feed. -/
def encodeStringMap (go122 : Bool) (entries : List (String × String)) : String :=
  String.mk (Char.ofNat 123 :: (encodeEntries go122 entries ++ [Char.ofNat 125, Char.ofNat 10]))

/-! ### Errors -/

/-- The Go `error` values the two programs can meet. -/
inductive GoError where
  | external (text : String)
  | deadlineExceeded
  | urlError (op url : String) (cause : GoError)
  | eof
  | unexpectedEOF
  | unexpectedEnd
  | invalidCharacter
  | typeMismatch (value target : String)
  deriving DecidableEq, Repr

/-- Go `err.Error()`. The wording of JSON errors is abridged: no claim
depends on it. -/
def GoError.Error : GoError → String
  | .external text => text
  | .deadlineExceeded => "context deadline exceeded"
  | .urlError op url cause => op ++ " \"" ++ url ++ "\": " ++ cause.Error
  | .eof => "EOF"
  | .unexpectedEOF => "unexpected EOF"
  | .unexpectedEnd => "unexpected end of JSON input"
  | .invalidCharacter => "invalid character"
  | .typeMismatch value target =>
    "json: cannot unmarshal " ++ value ++ " into Go value of type " ++ target

/-- Name of the kind of a JSON value in a type error. -/
def Value.kind : Value → String
  | .null => "null"
  | .bool _ => "bool"
  | .num _ => "number"
  | .str _ => "string"
  | .arr _ => "array"
  | .obj _ => "object"

/-- Go `saveError`: the first type error is kept. -/
def saveError (saved : Option GoError) (e : GoError) : Option GoError :=
  match saved with
  | some e0 => some e0
  | none => some e

/-! ### Matching object keys with struct fields -/

/-- Case folding of a key character as far as it decides a match with an
ASCII field name: letters fold to upper case, and the two non-ASCII
characters that Unicode folds onto ASCII letters (U+017F onto S, U+212A
onto K) fold with them. -/
def foldRune (c : Char) : Nat :=
  let n := c.toNat
  if 97 ≤ n ∧ n ≤ 122 then n - 32
  else if n = 0x17F then 83
  else if n = 0x212A then 75
  else n

/-- Go `foldName`. -/
def foldName (s : String) : List Nat :=
  s.data.map foldRune

/-- A key selects the field with tag `tag` when the two are equal after
folding (an exact match is a special case). -/
def sameField (tag key : String) : Bool :=
  foldName tag = foldName key

/-- Position of the first field whose tag matches the key. -/
def fieldIndex : List String → String → Option Nat
  | [], _ => none
  | t :: ts, key => if sameField t key then some 0 else (fieldIndex ts key).map (· + 1)

/-! ### `json.Unmarshal` into a `map[string]string` -/

/-- A Go `map[string]string`; `none` is the nil map. -/
abbrev StringMap := Option (List (String × String))

/-- Go `m[k]`: the zero value when the key is absent or the map is nil. -/
def StringMap.get (m : StringMap) (k : String) : String :=
  match m with
  | none => ""
  | some es => ((es.find? (fun e => e.1 = k)).map (·.2)).getD ""

/-- Go `m[k] = v` on the entries. -/
def setEntry (k v : String) : List (String × String) → List (String × String)
  | [] => [(k, v)]
  | e :: es => if e.1 = k then (k, v) :: es else e :: setEntry k v es

/-- Decode one member into the map: a string is stored, `null` stores the
zero value, any other value stores the zero value and saves a type error. -/
def mapStep (st : List (String × String) × Option GoError) (m : String × Value) :
    List (String × String) × Option GoError :=
  match m.2 with
  | .str s => (setEntry m.1 s st.1, st.2)
  | .null => (setEntry m.1 "" st.1, st.2)
  | v => (setEntry m.1 "" st.1, saveError st.2 (.typeMismatch v.kind "string"))

/-- Decode a value into a nil `map[string]string`. -/
def decodeStringMap (v : Value) : StringMap × Option GoError :=
  match v with
  | .obj ms => ((ms.foldl mapStep ([], none)).1, (ms.foldl mapStep ([], none)).2)
  | .null => (none, none)
  | v => (none, some (.typeMismatch v.kind "map[string]string"))

/-- Go `json.Unmarshal(data, &m)` for a nil `m` of type `map[string]string`:
`checkValid` accepts one value with white space around it, then the value is
decoded; a saved type error is returned. -/
def unmarshalStringMap (data : String) : Except GoError StringMap :=
  match scanText data.data with
  | .ok v rest =>
    match skipSpace rest with
    | [] =>
      match (decodeStringMap v).2 with
      | some e => .error e
      | none => .ok (decodeStringMap v).1
    | _ :: _ => .error .invalidCharacter
  | .more => .error .unexpectedEnd
  | .bad => .error .invalidCharacter

/-! ### `Decoder.Decode`: one value from a stream -/

/-- A response body as the reader delivers it: the text received and, when
the stream breaks off instead of ending, the read error. -/
structure Body where
  text : String
  failure : Option GoError
  deriving DecidableEq, Repr

/-- An object or an array: the values whose end the scanner sees at their
last character. -/
def Value.isContainer : Value → Bool
  | .obj _ => true
  | .arr _ => true
  | _ => false

/-- Go `Decoder.readValue` on a fresh decoder: the first value of the stream;
what follows it is left unread. A value that is not an object or an array
and reaches the end of the text is complete only when the stream really
ended. -/
def readValue (b : Body) : Except GoError Value :=
  match skipSpace b.text.data with
  | [] =>
    match b.failure with
    | some e => .error e
    | none => .error .eof
  | c :: cs =>
    match scanText (c :: cs) with
    | .ok v rest =>
      match b.failure with
      | some e => if v.isContainer || !rest.isEmpty then .ok v else .error e
      | none => .ok v
    | .more =>
      match b.failure with
      | some e => .error e
      | none => .error .unexpectedEOF
    | .bad => .error .invalidCharacter

end Json

/-! ## The server: `server/server.go` -/

namespace Server

open Json

/-- Go `time.Millisecond`, in nanoseconds. -/
def millisecond : Nat := 1000000

def dbFile : String := "database.db"

def endpointCambio : String := "https://economia.awesomeapi.com.br/json/last/USD-BRL"

def timeoutHttp : Nat := millisecond * 200

def timeoutDb : Nat := millisecond * 10

/-- The anonymous struct of field `Usdbrl` of `Cotacao`. -/
structure CotacaoUsdbrl where
  Code : String
  Codein : String
  Name : String
  High : String
  Low : String
  VarBid : String
  PctChange : String
  Bid : String
  Ask : String
  Timestamp : String
  CreateDate : String
  deriving DecidableEq, Repr

/-- Go `type Cotacao struct`. -/
structure Cotacao where
  Usdbrl : CotacaoUsdbrl
  deriving DecidableEq, Repr

/-- The zero value of `Cotacao` (`var cotacao Cotacao`). -/
def Cotacao.zero : Cotacao :=
  ⟨⟨"", "", "", "", "", "", "", "", "", "", ""⟩⟩

/-- The `json` tags of the fields of `Usdbrl`, in declaration order. -/
def usdbrlTags : List String :=
  ["code", "codein", "name", "high", "low", "varBid", "pctChange", "bid", "ask",
   "timestamp", "create_date"]

/-- Store a string in the field at a position of `usdbrlTags`. -/
def CotacaoUsdbrl.set (u : CotacaoUsdbrl) (i : Nat) (s : String) : CotacaoUsdbrl :=
  match i with
  | 0 => { u with Code := s }
  | 1 => { u with Codein := s }
  | 2 => { u with Name := s }
  | 3 => { u with High := s }
  | 4 => { u with Low := s }
  | 5 => { u with VarBid := s }
  | 6 => { u with PctChange := s }
  | 7 => { u with Bid := s }
  | 8 => { u with Ask := s }
  | 9 => { u with Timestamp := s }
  | 10 => { u with CreateDate := s }
  | _ => u

/-- Decode one member of the `USDBRL` object: a key matching no field is
skipped; for a string field a string is stored, `null` changes nothing and
any other value saves a type error. -/
def fieldStep (st : CotacaoUsdbrl × Option GoError) (m : String × Value) :
    CotacaoUsdbrl × Option GoError :=
  match fieldIndex usdbrlTags m.1 with
  | none => st
  | some i =>
    match m.2 with
    | .str s => (st.1.set i s, st.2)
    | .null => st
    | v => (st.1, saveError st.2 (.typeMismatch v.kind "string"))

/-- Decode one member of the top-level object: only a key matching `USDBRL`
is used; an object is decoded into the struct already there, `null` changes
nothing and any other value saves a type error. -/
def cotacaoStep (st : Cotacao × Option GoError) (m : String × Value) :
    Cotacao × Option GoError :=
  if sameField "USDBRL" m.1 then
    match m.2 with
    | .obj ms => (⟨(ms.foldl fieldStep (st.1.Usdbrl, st.2)).1⟩,
                  (ms.foldl fieldStep (st.1.Usdbrl, st.2)).2)
    | .null => st
    | v => (st.1, saveError st.2 (.typeMismatch v.kind "struct"))
  else st

/-- Decode a JSON value into a `Cotacao`. -/
def decodeCotacao (v : Value) (c : Cotacao) : Cotacao × Option GoError :=
  match v with
  | .obj ms => ms.foldl cotacaoStep (c, none)
  | .null => (c, none)
  | v => (c, some (.typeMismatch v.kind "main.Cotacao"))

/-- Go `json.NewDecoder(body).Decode(&cotacao)`: the struct after the call
and the error returned. -/
def decodeBody (b : Body) (c : Cotacao) : Cotacao × Option GoError :=
  match readValue b with
  | .error e => (c, some e)
  | .ok v => decodeCotacao v c

/-! ### Shapes of upstream documents -/

/-- A member of the `USDBRL` object that the decoder accepts: its key names
no field of the struct, or its value is a string or `null`. -/
def fieldOk (m : String × Value) : Bool :=
  match fieldIndex usdbrlTags m.1, m.2 with
  | none, _ => true
  | some _, .str _ => true
  | some _, .null => true
  | some _, _ => false

/-- The bid of an upstream document that the decoder accepts and reads in
one way only: an object with exactly one member named `USDBRL`, itself an
object in which every member named after a field of the struct holds a
string or `null` and exactly one member is named `bid`, holding a string.
Names are compared as the decoder compares them, without regard to case.
Other documents give `none`: a member of another type under a field name is
a type error for the decoder, and a second member under the same name
replaces the first. -/
def acceptedBid (j : Value) : Option String :=
  match j with
  | .obj outer =>
    match outer.filter (fun m => sameField "USDBRL" m.1) with
    | [(_, .obj inner)] =>
      if inner.all fieldOk then
        match inner.filter (fun m => sameField "bid" m.1) with
        | [(_, .str v)] => some v
        | _ => none
      else none
    | _ => none
  | _ => none

/-- A member of a `USDBRL` object that the decoder accepts and that gives no
bid: as `fieldOk`, but a member named `bid` holds `null`. -/
def fieldNoBid (m : String × Value) : Bool :=
  match fieldIndex usdbrlTags m.1, m.2 with
  | none, _ => true
  | some _, .str _ => !sameField "bid" m.1
  | some _, .null => true
  | some _, _ => false

/-- A member of the top-level object that the decoder accepts and that gives
no bid: it is not named `USDBRL`, or it is `null`, or an object all of whose
members are `fieldNoBid`. -/
def memberNoBid (m : String × Value) : Bool :=
  !sameField "USDBRL" m.1 ||
    match m.2 with
    | .null => true
    | .obj inner => inner.all fieldNoBid
    | _ => false

/-- A JSON object that decodes without a type error and holds no
`USDBRL.bid` string. -/
def objectWithoutBid (j : Value) : Bool :=
  match j with
  | .obj outer => outer.all memberNoBid
  | _ => false

/-- A row of table `cotacoes`. -/
structure Row where
  id : Nat
  valor : String
  data : Nat
  deriving DecidableEq, Repr

/-- The database file: the rows of `cotacoes` in insertion order and the
counter that `AUTOINCREMENT` keeps. -/
structure Database where
  cotacoes : List Row
  seq : Nat
  deriving DecidableEq, Repr

/-- The id `AUTOINCREMENT` gives the next row: one more than the largest id
ever used. -/
def Database.nextId (db : Database) : Nat :=
  (db.cotacoes.map (·.id)).foldl max db.seq + 1

/-- The statement `INSERT INTO cotacoes (valor) VALUES (?)` completing at
time `now`: `id` and `data` take their defaults. -/
def Database.insert (db : Database) (valor : String) (now : Nat) : Database :=
  { cotacoes := db.cotacoes ++ [⟨db.nextId, valor, now⟩], seq := db.nextId }

/-- What a request does to the outside, in order. -/
inductive Effect where
  | sqlOpen (driver file : String)
  | httpDo (method url : String) (deadline : Nat)
  | execContext (db : Nat) (query arg : String) (deadline : Nat)
  | dbClose (db : Nat)
  | logPrintf (line : String)
  | headerSet (key value : String)
  | writeHeader (code : Nat)
  | write (text : String)
  deriving DecidableEq, Repr

/-- State of an `http.ResponseWriter`. -/
structure ResponseWriter where
  header : List (String × String)
  status : Option Nat
  body : String
  deriving DecidableEq, Repr

/-- The writer a handler receives. -/
def ResponseWriter.fresh : ResponseWriter :=
  ⟨[], none, ""⟩

/-- Value of a header, if set. -/
def ResponseWriter.headerGet (w : ResponseWriter) (key : String) : Option String :=
  (w.header.find? (fun e => e.1 = key)).map (·.2)

/-- State a request runs in. -/
structure World where
  db : Database
  w : ResponseWriter
  trace : List Effect
  deriving DecidableEq, Repr

/-- Outcome of an HTTP round trip: a transport failure, or the response
head arriving `after` nanoseconds with its status and body. -/
inductive NetOutcome where
  | fails (e : GoError)
  | replies (after : Nat) (status : Nat) (body : Body)
  deriving DecidableEq, Repr

/-- Outcome of the insert statement: a failure, or completion `after`
nanoseconds at clock time `now`. -/
inductive ExecOutcome where
  | fails (e : GoError)
  | completes (after : Nat) (now : Nat)
  deriving DecidableEq, Repr

/-- What the outside answers during one request. -/
structure Env where
  sqlOpen : Except GoError Nat
  newRequest : Option GoError
  roundTrip : NetOutcome
  exec : ExecOutcome
  go122 : Bool

/-- Record an effect. -/
def World.emit (wd : World) (e : Effect) : World :=
  { wd with trace := wd.trace ++ [e] }

/-- Go `w.Header().Set(key, value)`. -/
def headerSet (key value : String) (wd : World) : World :=
  { wd.emit (.headerSet key value) with
    w := { wd.w with header := setEntry key value wd.w.header } }

/-- Go `w.WriteHeader(code)`: the first call fixes the status. -/
def writeHeader (code : Nat) (wd : World) : World :=
  { wd.emit (.writeHeader code) with
    w := { wd.w with status := some (wd.w.status.getD code) } }

/-- Go `w.Write`: status 200 unless one was written. -/
def write (text : String) (wd : World) : World :=
  { wd.emit (.write text) with
    w := { wd.w with status := some (wd.w.status.getD 200), body := wd.w.body ++ text } }

/-- Go `http.Error(w, msg, code)`. -/
def httpError (msg : String) (code : Nat) (wd : World) : World :=
  write (msg ++ "\n")
    (writeHeader code
      (headerSet "X-Content-Type-Options" "nosniff"
        (headerSet "Content-Type" "text/plain; charset=utf-8" wd)))

/-- Go `log.Printf`, the line without its time stamp. -/
def logPrintf (line : String) (wd : World) : World :=
  wd.emit (.logPrintf line)

/-- Go `db.Close()`. -/
def dbClose (db : Nat) (wd : World) : World :=
  wd.emit (.dbClose db)

/-- Go `client.Do(req)` for a GET under a context deadline: a transport
failure and a head that arrives after the deadline both come back as a
`*url.Error`. -/
def clientDo (url : String) (deadline : Nat) (net : NetOutcome) : Except GoError (Nat × Body) :=
  match net with
  | .fails e => .error (.urlError "Get" url e)
  | .replies after status body =>
    if after ≤ deadline then .ok (status, body)
    else .error (.urlError "Get" url .deadlineExceeded)

/-- Go `conectarBanco`. -/
def conectarBanco (env : Env) (wd : World) : Except GoError Nat × World :=
  match env.sqlOpen with
  | .error err => (.error err, wd.emit (.sqlOpen "sqlite3" dbFile))
  | .ok db => (.ok db, wd.emit (.sqlOpen "sqlite3" dbFile))

/-- Go `salvarCotacao`: the insert under the deadline `timeoutDb`. -/
def salvarCotacao (env : Env) (db : Nat) (valor : String) (wd : World) :
    Option GoError × World :=
  let wd1 := wd.emit (.execContext db "INSERT INTO cotacoes (valor) VALUES (?)" valor timeoutDb)
  match env.exec with
  | .fails err => (some err, wd1)
  | .completes after now =>
    if after ≤ timeoutDb then (none, { wd1 with db := wd1.db.insert valor now })
    else (some .deadlineExceeded, wd1)

/-- Go `obterCotacao`: the request under the deadline `timeoutHttp`, then
the body decoded into a `Cotacao`; the status of the response is not
looked at. -/
def obterCotacao (env : Env) (wd : World) : Except GoError String × World :=
  match env.newRequest with
  | some err => (.error err, wd)
  | none =>
    let wd1 := wd.emit (.httpDo "GET" endpointCambio timeoutHttp)
    match clientDo endpointCambio timeoutHttp env.roundTrip with
    | .error err => (.error err, wd1)
    | .ok resp =>
      match (decodeBody resp.2 Cotacao.zero).2 with
      | some err => (.error err, wd1)
      | none => (.ok (decodeBody resp.2 Cotacao.zero).1.Usdbrl.Bid, wd1)

/-- Go `cotacaoHandler`. The deferred `db.Close()` runs when the part after
the `defer` statement has returned. -/
def cotacaoHandler (env : Env) (wd : World) : World :=
  match conectarBanco env wd with
  | (.error _, wd1) => httpError "Erro ao conectar ao banco de dados" 500 wd1
  | (.ok db, wd1) =>
    dbClose db
      (match obterCotacao env wd1 with
       | (.error err, wd2) =>
         httpError err.Error 500 (logPrintf ("Erro ao acesar o endpoint: " ++ err.Error) wd2)
       | (.ok cotacao, wd2) =>
         match salvarCotacao env db cotacao wd2 with
         | (some err, wd3) =>
           httpError ("Erro ao salvar na base de dados:" ++ err.Error) 500
             (logPrintf ("Erro ao salvar na base de dados: " ++ err.Error) wd3)
         | (none, wd3) =>
           write (encodeStringMap env.go122 [("bid", cotacao)])
             (writeHeader 200 (headerSet "Content-Type" "application/json" wd3)))

/-- A request arriving when the database holds `db`. -/
def request (db : Database) : World :=
  ⟨db, ResponseWriter.fresh, []⟩

/-! ### Sample requests -/

/-- A database holding one earlier quotation. -/
def sampleDb : Database :=
  ⟨[⟨1, "5.40", 1700000000⟩], 1⟩

/-- An upstream body of the documented shape. -/
def sampleBody : Body :=
  ⟨"\x7b\"USDBRL\":\x7b\"code\":\"USD\",\"codein\":\"BRL\",\"bid\":\"5.43\",\"ask\":\"5.44\"\x7d\x7d", none⟩

/-- The value of `sampleBody`. -/
def sampleValue : Value :=
  .obj [("USDBRL", .obj [("code", .str "USD"), ("codein", .str "BRL"), ("bid", .str "5.43"),
    ("ask", .str "5.44")])]

/-- Everything works: the upstream answers after 120 ms, the insert takes
2 ms. -/
def sampleEnv : Env :=
  ⟨.ok 1, none, .replies (millisecond * 120) 200 sampleBody, .completes (millisecond * 2) 1700000600,
    true⟩

/-- The upstream answers after 250 ms. -/
def slowUpstreamEnv : Env :=
  ⟨.ok 1, none, .replies (millisecond * 250) 200 sampleBody, .completes (millisecond * 2) 1700000600,
    true⟩

/-- The insert takes 15 ms. -/
def slowInsertEnv : Env :=
  ⟨.ok 1, none, .replies (millisecond * 120) 200 sampleBody, .completes (millisecond * 15) 1700000600,
    true⟩

/-- The database handle cannot be opened. -/
def noDatabaseEnv : Env :=
  ⟨.error (.external "sql: unknown driver"), none, .replies (millisecond * 120) 200 sampleBody,
    .completes (millisecond * 2) 1700000600, true⟩

/-- An upstream body whose `bid` is the string `5.43` and whose `ask` is a
number. -/
def numericAskBody : Body :=
  ⟨"\x7b\"USDBRL\":\x7b\"code\":\"USD\",\"bid\":\"5.43\",\"ask\":5.44\x7d\x7d", none⟩

/-- The upstream answers `numericAskBody`; everything else works. -/
def numericAskEnv : Env :=
  ⟨.ok 1, none, .replies (millisecond * 120) 200 numericAskBody,
    .completes (millisecond * 2) 1700000600, true⟩

/-- An upstream body whose `bid` is the string `5.43`, followed by a member
`Bid` holding `9.99`. -/
def secondBidBody : Body :=
  ⟨"\x7b\"USDBRL\":\x7b\"bid\":\"5.43\",\"Bid\":\"9.99\"\x7d\x7d", none⟩

/-- The upstream answers `secondBidBody`; everything else works. -/
def secondBidEnv : Env :=
  ⟨.ok 1, none, .replies (millisecond * 120) 200 secondBidBody,
    .completes (millisecond * 2) 1700000600, true⟩

/-- An upstream body whose `USDBRL.bid` is the string `5.43`, followed by a
member `usdbrl` whose `bid` is `9.99`. -/
def secondUsdbrlBody : Body :=
  ⟨"\x7b\"USDBRL\":\x7b\"bid\":\"5.43\"\x7d,\"usdbrl\":\x7b\"bid\":\"9.99\"\x7d\x7d", none⟩

/-- The upstream answers `secondUsdbrlBody`; everything else works. -/
def secondUsdbrlEnv : Env :=
  ⟨.ok 1, none, .replies (millisecond * 120) 200 secondUsdbrlBody,
    .completes (millisecond * 2) 1700000600, true⟩

/-- An upstream body, a valid JSON object, whose `bid` is a number. -/
def numericBidBody : Body :=
  ⟨"\x7b\"USDBRL\":\x7b\"bid\":5.43\x7d\x7d", none⟩

/-- The upstream answers `numericBidBody`; everything else works. -/
def numericBidEnv : Env :=
  ⟨.ok 1, none, .replies (millisecond * 120) 200 numericBidBody,
    .completes (millisecond * 2) 1700000600, true⟩

/-- An upstream error object, sent with status 404. -/
def errorObjectBody : Body :=
  ⟨"\x7b\"status\":404,\"code\":\"CoinNotExists\",\"message\":\"moeda nao encontrada\"\x7d", none⟩

/-- The value of `errorObjectBody`. -/
def errorObjectValue : Value :=
  .obj [("status", .num [Char.ofNat 52, Char.ofNat 48, Char.ofNat 52]),
    ("code", .str "CoinNotExists"), ("message", .str "moeda nao encontrada")]

/-- The upstream answers `errorObjectBody`; everything else works. -/
def errorObjectEnv : Env :=
  ⟨.ok 1, none, .replies (millisecond * 120) 404 errorObjectBody,
    .completes (millisecond * 2) 1700000600, true⟩

end Server

/-! ## The client: `client/client.go` -/

namespace Client

open Json

def serverURL : String := "http://localhost:8080/cotacao"

def arquivoCotacao : String := "cotacao.txt"

def timeout : Nat := 300 * Server.millisecond

/-- Outcome of `os.WriteFile`: done, or a failure that leaves the file in
the state given. -/
inductive WriteOutcome where
  | done
  | fails (e : GoError) (left : Option String)
  deriving DecidableEq, Repr

/-- What the outside answers during one run of the client. -/
structure Env where
  newRequest : Option GoError
  roundTrip : Server.NetOutcome
  writeFile : WriteOutcome

/-- What a run of the client does to the outside, in order. -/
inductive Effect where
  | httpDo (method url : String) (deadline : Nat)
  | writeFile (name text : String) (perm : Nat)
  | logLine (line : String)
  deriving DecidableEq, Repr

/-- State of a run: the content of `cotacao.txt` (`none` when the file does
not exist), the effects so far, and the exit status once the process has
ended. -/
structure World where
  file : Option String
  trace : List Effect
  exit : Option Nat
  deriving DecidableEq, Repr

/-- Record an effect. -/
def World.emit (wd : World) (e : Effect) : World :=
  { wd with trace := wd.trace ++ [e] }

/-- Go `io.ReadAll(resp.Body)`. -/
def readAll (b : Body) : Except GoError String :=
  match b.failure with
  | some err => .error err
  | none => .ok b.text

/-- Go `obterCotacaoDoServidor`: the request under the deadline `timeout`,
the whole body read, then decoded into a string map and looked up at
`bid`; the status of the response is not looked at. -/
def obterCotacaoDoServidor (env : Env) (wd : World) : Except GoError String × World :=
  match env.newRequest with
  | some err => (.error err, wd)
  | none =>
    let wd1 := wd.emit (.httpDo "GET" serverURL timeout)
    match Server.clientDo serverURL timeout env.roundTrip with
    | .error err => (.error err, wd1)
    | .ok resp =>
      match readAll resp.2 with
      | .error err => (.error err, wd1)
      | .ok body =>
        match unmarshalStringMap body with
        | .error err => (.error err, wd1)
        | .ok result => (.ok (result.get "bid"), wd1)

/-- Go `salvarCotacaoNoArquivo`: `os.WriteFile` replaces the whole content of
the file, creating it with mode 0644 when absent. -/
def salvarCotacaoNoArquivo (env : Env) (cotacao : String) (wd : World) :
    Option GoError × World :=
  let conteudo := "Dólar: " ++ cotacao
  let wd1 := wd.emit (.writeFile arquivoCotacao conteudo 0o644)
  match env.writeFile with
  | .done => (none, { wd1 with file := some conteudo })
  | .fails err left => (some err, { wd1 with file := left })

/-- Go `log.Fatalf`: the line is logged and the process exits with status 1. -/
def logFatalf (line : String) (wd : World) : World :=
  { wd.emit (.logLine line) with exit := some 1 }

/-- Go `main` of the client; returning from `main` is exit status 0. -/
def main (env : Env) (wd : World) : World :=
  match obterCotacaoDoServidor env wd with
  | (.error err, wd1) => logFatalf ("Erro ao obter cotação do servidor: " ++ err.Error) wd1
  | (.ok cotacao, wd1) =>
    match salvarCotacaoNoArquivo env cotacao wd1 with
    | (some err, wd2) => logFatalf ("Erro ao salvar cotação no arquivo: " ++ err.Error) wd2
    | (none, wd2) =>
      { wd2.emit (.logLine ("Cotação salva em " ++ arquivoCotacao ++ ": Dólar: " ++ cotacao))
        with exit := some 0 }

/-- The client starting when `cotacao.txt` holds `file`. -/
def start (file : Option String) : World :=
  ⟨file, [], none⟩

/-! ### Sample runs -/

/-- The server answers the body of the specification after 1 ms and the
file can be written. -/
def sampleEnv : Env :=
  ⟨none, .replies Server.millisecond 200 ⟨"\x7b\"bid\": \"5.43\"\x7d", none⟩, .done⟩

/-- The server answers after 350 ms. -/
def slowServerEnv : Env :=
  ⟨none, .replies (Server.millisecond * 350) 200 ⟨"\x7b\"bid\": \"5.43\"\x7d", none⟩, .done⟩

/-- The client receives, after 150 ms, what the server wrote for a request. -/
def relayEnv (senv : Server.Env) (db : Server.Database) : Env :=
  ⟨none, .replies (Server.millisecond * 150) 200
    ⟨(Server.cotacaoHandler senv (Server.request db)).w.body, none⟩, .done⟩

end Client

namespace Json

/-! ## Lemmas: the fuel of the scanner is enough -/

theorem Scan.map_eq_ok {α β : Type} (f : α → β) (s : Scan α) (b : β) (r : List Char)
    (h : s.map f = .ok b r) : ∃ a, s = .ok a r ∧ f a = b := by
  cases s with
  | ok a rest =>
    simp only [Scan.map, Scan.ok.injEq] at h
    exact ⟨a, by rw [h.2], h.1⟩
  | more => simp [Scan.map] at h
  | bad => simp [Scan.map] at h

theorem Scan.bind_eq_ok {α β : Type} (f : α → List Char → Scan β) (s : Scan α) (b : β)
    (r : List Char) (h : s.bind f = .ok b r) : ∃ a r1, s = .ok a r1 ∧ f a r1 = .ok b r := by
  cases s with
  | ok a rest => exact ⟨a, rest, rfl, h⟩
  | more => simp [Scan.bind] at h
  | bad => simp [Scan.bind] at h

theorem skipSpace_length (cs : List Char) : (skipSpace cs).length ≤ cs.length := by
  induction cs with
  | nil => simp [skipSpace]
  | cons c cs ih =>
    simp only [skipSpace]
    split
    · simp only [List.length_cons]; omega
    · simp

theorem skipSpace_cons_length (cs r : List Char) (c : Char) (h : skipSpace cs = c :: r) :
    r.length < cs.length := by
  have := skipSpace_length cs
  rw [h] at this
  simp only [List.length_cons] at this
  omega

theorem scanString_length (n : Nat) : ∀ (cs : List Char) (us : List Unit16) (r : List Char),
    cs.length ≤ n → scanString cs = .ok us r → r.length < cs.length := by
  induction n with
  | zero =>
    intro cs us r hn h
    have : cs = [] := List.length_eq_zero.mp (Nat.le_zero.mp hn)
    subst this
    simp [scanString] at h
  | succ n ih =>
    intro cs us r hn h
    rw [scanString.eq_def] at h
    split at h
    · simp at h
    · rename_i c cs1
      simp only [List.length_cons] at hn ⊢
      split at h
      · simp only [Scan.ok.injEq] at h
        rw [← h.2]; omega
      · split at h
        · split at h
          · simp at h
          · rename_i e cs2
            simp only [List.length_cons] at hn ⊢
            split at h
            · split at h
              · rename_i h1 h2 h3 h4 cs3
                simp only [List.length_cons] at hn ⊢
                split at h
                · obtain ⟨a, ha, -⟩ := Scan.map_eq_ok _ _ _ _ h
                  have := ih cs3 a r (by omega) ha
                  omega
                · simp at h
              · simp only [shortHex] at h
                split at h <;> simp at h
            · split at h
              · obtain ⟨a, ha, -⟩ := Scan.map_eq_ok _ _ _ _ h
                have := ih cs2 a r (by omega) ha
                omega
              · simp at h
        · split at h
          · simp at h
          · obtain ⟨a, ha, -⟩ := Scan.map_eq_ok _ _ _ _ h
            have := ih cs1 a r (by omega) ha
            omega

theorem spanDigits_length (cs : List Char) :
    (spanDigits cs).1.length + (spanDigits cs).2.length = cs.length := by
  induction cs with
  | nil => simp [spanDigits]
  | cons c cs ih =>
    simp only [spanDigits]
    split
    · simp only [List.length_cons]; omega
    · simp

theorem scanDigits1_length (cs ds r : List Char) (h : scanDigits1 cs = .ok ds r) :
    r.length < cs.length := by
  unfold scanDigits1 at h
  have hl := spanDigits_length cs
  split at h
  · simp at h
  · simp at h
  · rename_i d ds0 rest heq
    simp only [Scan.ok.injEq] at h
    rw [heq] at hl
    simp only [List.length_cons] at hl
    rw [← h.2]; omega

theorem scanExp_length (acc cs a r : List Char) (h : scanExp acc cs = .ok a r) :
    r.length ≤ cs.length := by
  unfold scanExp at h
  split at h
  · simp only [Scan.ok.injEq] at h
    rw [← h.2]
  · rename_i e r0
    simp only [List.length_cons]
    split at h
    · split at h
      · simp at h
      · rename_i s r1
        simp only [List.length_cons]
        split at h
        · obtain ⟨x, hx, -⟩ := Scan.map_eq_ok _ _ _ _ h
          have := scanDigits1_length _ _ _ hx
          omega
        · obtain ⟨x, hx, -⟩ := Scan.map_eq_ok _ _ _ _ h
          have := scanDigits1_length _ _ _ hx
          simp only [List.length_cons] at this
          omega
    · simp only [Scan.ok.injEq] at h
      rw [← h.2]
      simp

theorem scanFrac_length (acc cs a r : List Char) (h : scanFrac acc cs = .ok a r) :
    r.length ≤ cs.length := by
  unfold scanFrac at h
  split at h
  · simp only [Scan.ok.injEq] at h
    rw [← h.2]
  · rename_i p r0
    simp only [List.length_cons]
    split at h
    · obtain ⟨x, r1, hx, hy⟩ := Scan.bind_eq_ok _ _ _ _ h
      have h1 := scanDigits1_length _ _ _ hx
      have h2 := scanExp_length _ _ _ _ hy
      omega
    · have h2 := scanExp_length _ _ _ _ h
      simpa using h2

theorem scanInt_length (acc : List Char) (d : Char) (r0 a r : List Char)
    (h : scanInt acc d r0 = .ok a r) : r.length ≤ r0.length := by
  unfold scanInt at h
  split at h
  · exact scanFrac_length _ _ _ _ h
  · split at h
    · have h1 := scanFrac_length _ _ _ _ h
      have h2 := spanDigits_length r0
      omega
    · simp at h

theorem scanNumber_length (cs a r : List Char) (h : scanNumber cs = .ok a r) :
    r.length < cs.length := by
  unfold scanNumber at h
  split at h
  · simp at h
  · rename_i c r0
    simp only [List.length_cons]
    split at h
    · split at h
      · simp at h
      · rename_i d r1
        have := scanInt_length _ _ _ _ _ h
        simp only [List.length_cons]
        omega
    · have := scanInt_length _ _ _ _ _ h
      omega

theorem scanLiteral_length (v : Value) (es cs : List Char) (w : Value) (r : List Char)
    (h : scanLiteral v es cs = .ok w r) : r.length ≤ cs.length := by
  induction es generalizing cs with
  | nil =>
    simp only [scanLiteral, Scan.ok.injEq] at h
    rw [← h.2]
  | cons e es ih =>
    cases cs with
    | nil => simp [scanLiteral] at h
    | cons c cs =>
      simp only [scanLiteral] at h
      split at h
      · have := ih cs h
        simp only [List.length_cons]
        omega
      · simp at h

theorem scanValue_length_step (f : Nat)
    (ihM : ∀ d cs ms r, scanMembers f d cs = .ok ms r → r.length < cs.length)
    (ihE : ∀ d cs xs r, scanElements f d cs = .ok xs r → r.length < cs.length)
    (d : Nat) (cs : List Char) (v : Value) (r : List Char)
    (h : scanValue (f + 1) d cs = .ok v r) : r.length < cs.length := by
  rw [scanValue] at h
  split at h
  · simp at h
  · rename_i c r0 heq
    have h0 := skipSpace_cons_length _ _ _ heq
    split at h
    · split at h
      · simp at h
      · split at h
        · simp at h
        · rename_i c1 r1 heq1
          have h1 := skipSpace_cons_length _ _ _ heq1
          split at h
          · simp only [Scan.ok.injEq] at h
            rw [← h.2]; omega
          · obtain ⟨a, ha, -⟩ := Scan.map_eq_ok _ _ _ _ h
            have := ihM _ _ _ _ ha
            simp only [List.length_cons] at this
            omega
    · split at h
      · split at h
        · simp at h
        · split at h
          · simp at h
          · rename_i c1 r1 heq1
            have h1 := skipSpace_cons_length _ _ _ heq1
            split at h
            · simp only [Scan.ok.injEq] at h
              rw [← h.2]; omega
            · obtain ⟨a, ha, -⟩ := Scan.map_eq_ok _ _ _ _ h
              have := ihE _ _ _ _ ha
              simp only [List.length_cons] at this
              omega
      · split at h
        · obtain ⟨a, ha, -⟩ := Scan.map_eq_ok _ _ _ _ h
          have := scanString_length _ _ _ _ (Nat.le_refl _) ha
          omega
        · split at h
          · obtain ⟨a, ha, -⟩ := Scan.map_eq_ok _ _ _ _ h
            have := scanNumber_length _ _ _ ha
            simp only [List.length_cons] at this
            omega
          · split at h
            · have := scanLiteral_length _ _ _ _ _ h
              omega
            · split at h
              · have := scanLiteral_length _ _ _ _ _ h
                omega
              · split at h
                · have := scanLiteral_length _ _ _ _ _ h
                  omega
                · simp at h

theorem scanMembers_length_step (f : Nat)
    (ihV : ∀ d cs v r, scanValue f d cs = .ok v r → r.length < cs.length)
    (ihM : ∀ d cs ms r, scanMembers f d cs = .ok ms r → r.length < cs.length)
    (d : Nat) (cs : List Char) (ms : List (String × Value)) (r : List Char)
    (h : scanMembers (f + 1) d cs = .ok ms r) : r.length < cs.length := by
  rw [scanMembers] at h
  split at h
  · simp at h
  · rename_i q r0 heq
    have h0 := skipSpace_cons_length _ _ _ heq
    split at h
    · obtain ⟨us, r1, hs, h⟩ := Scan.bind_eq_ok _ _ _ _ h
      have h1 := scanString_length _ _ _ _ (Nat.le_refl _) hs
      split at h
      · simp at h
      · rename_i colon r2 heq2
        have h2 := skipSpace_cons_length _ _ _ heq2
        split at h
        · obtain ⟨v, r3, hv, h⟩ := Scan.bind_eq_ok _ _ _ _ h
          have h3 := ihV _ _ _ _ hv
          split at h
          · simp at h
          · rename_i s r4 heq4
            have h4 := skipSpace_cons_length _ _ _ heq4
            split at h
            · obtain ⟨a, ha, -⟩ := Scan.map_eq_ok _ _ _ _ h
              have := ihM _ _ _ _ ha
              omega
            · split at h
              · simp only [Scan.ok.injEq] at h
                rw [← h.2]; omega
              · simp at h
        · simp at h
    · simp at h

theorem scanElements_length_step (f : Nat)
    (ihV : ∀ d cs v r, scanValue f d cs = .ok v r → r.length < cs.length)
    (ihE : ∀ d cs xs r, scanElements f d cs = .ok xs r → r.length < cs.length)
    (d : Nat) (cs : List Char) (xs : List Value) (r : List Char)
    (h : scanElements (f + 1) d cs = .ok xs r) : r.length < cs.length := by
  rw [scanElements] at h
  obtain ⟨v, r3, hv, h⟩ := Scan.bind_eq_ok _ _ _ _ h
  have h3 := ihV _ _ _ _ hv
  split at h
  · simp at h
  · rename_i s r4 heq4
    have h4 := skipSpace_cons_length _ _ _ heq4
    split at h
    · obtain ⟨a, ha, -⟩ := Scan.map_eq_ok _ _ _ _ h
      have := ihE _ _ _ _ ha
      omega
    · split at h
      · simp only [Scan.ok.injEq] at h
        rw [← h.2]; omega
      · simp at h

/-- Every successful scan reads at least one character. -/
theorem scan_length (f : Nat) :
    (∀ d cs v r, scanValue f d cs = .ok v r → r.length < cs.length) ∧
    (∀ d cs ms r, scanMembers f d cs = .ok ms r → r.length < cs.length) ∧
    (∀ d cs xs r, scanElements f d cs = .ok xs r → r.length < cs.length) := by
  induction f with
  | zero =>
    refine ⟨?_, ?_, ?_⟩ <;> intro d cs v r h
    · simp [scanValue] at h
    · simp [scanMembers] at h
    · simp [scanElements] at h
  | succ f ih =>
    exact ⟨scanValue_length_step f ih.2.1 ih.2.2, scanMembers_length_step f ih.1 ih.2.1,
      scanElements_length_step f ih.1 ih.2.2⟩

theorem scanValue_fuel_step (f : Nat)
    (ihM : ∀ d cs, 2 * cs.length + 1 ≤ f → scanMembers (f + 1) d cs = scanMembers f d cs)
    (ihE : ∀ d cs, 2 * cs.length + 2 ≤ f → scanElements (f + 1) d cs = scanElements f d cs)
    (d : Nat) (cs : List Char) (hf : 2 * cs.length + 1 ≤ f + 1) :
    scanValue (f + 1 + 1) d cs = scanValue (f + 1) d cs := by
  rw [scanValue, scanValue]
  cases hs : skipSpace cs with
  | nil => rfl
  | cons c r0 =>
    have h0 := skipSpace_cons_length _ _ _ hs
    simp only
    cases hs1 : skipSpace r0 with
    | nil => rfl
    | cons c1 r1 =>
      have h1 := skipSpace_cons_length _ _ _ hs1
      simp only
      rw [ihM (d + 1) (c1 :: r1) (by simp only [List.length_cons]; omega),
        ihE (d + 1) (c1 :: r1) (by simp only [List.length_cons]; omega)]

theorem scanMembers_fuel_step (f : Nat)
    (ihV : ∀ d cs, 2 * cs.length + 1 ≤ f → scanValue (f + 1) d cs = scanValue f d cs)
    (ihM : ∀ d cs, 2 * cs.length + 1 ≤ f → scanMembers (f + 1) d cs = scanMembers f d cs)
    (d : Nat) (cs : List Char) (hf : 2 * cs.length + 1 ≤ f + 1) :
    scanMembers (f + 1 + 1) d cs = scanMembers (f + 1) d cs := by
  rw [scanMembers, scanMembers]
  cases hs : skipSpace cs with
  | nil => rfl
  | cons q r0 =>
    have h0 := skipSpace_cons_length _ _ _ hs
    simp only
    by_cases hq : q.toNat = 34
    · simp only [hq, if_true]
      cases hss : scanString r0 with
      | more => rfl
      | bad => rfl
      | ok us r1 =>
        have h1 := scanString_length _ _ _ _ (Nat.le_refl _) hss
        simp only [Scan.bind]
        cases hs2 : skipSpace r1 with
        | nil => rfl
        | cons colon r2 =>
          have h2 := skipSpace_cons_length _ _ _ hs2
          simp only
          by_cases hc : colon.toNat = 58
          · simp only [hc, if_true]
            rw [ihV d r2 (by omega)]
            cases hv : scanValue f d r2 with
            | more => rfl
            | bad => rfl
            | ok v r3 =>
              have h3 := (scan_length f).1 _ _ _ _ hv
              simp only [Scan.bind]
              cases hs4 : skipSpace r3 with
              | nil => rfl
              | cons s r4 =>
                have h4 := skipSpace_cons_length _ _ _ hs4
                simp only
                rw [ihM d r4 (by omega)]
          · simp only [hc, if_false]
    · simp only [hq, if_false]

theorem scanElements_fuel_step (f : Nat)
    (ihV : ∀ d cs, 2 * cs.length + 1 ≤ f → scanValue (f + 1) d cs = scanValue f d cs)
    (ihE : ∀ d cs, 2 * cs.length + 2 ≤ f → scanElements (f + 1) d cs = scanElements f d cs)
    (d : Nat) (cs : List Char) (hf : 2 * cs.length + 2 ≤ f + 1) :
    scanElements (f + 1 + 1) d cs = scanElements (f + 1) d cs := by
  rw [scanElements, scanElements]
  rw [ihV d cs (by omega)]
  cases hv : scanValue f d cs with
  | more => rfl
  | bad => rfl
  | ok v r3 =>
    have h3 := (scan_length f).1 _ _ _ _ hv
    simp only [Scan.bind]
    cases hs4 : skipSpace r3 with
    | nil => rfl
    | cons s r4 =>
      have h4 := skipSpace_cons_length _ _ _ hs4
      simp only
      rw [ihE d r4 (by omega)]

/-- Above twice the length of the input, one more unit of fuel changes
nothing. -/
theorem scan_fuel_succ (f : Nat) :
    (∀ d cs, 2 * cs.length + 1 ≤ f → scanValue (f + 1) d cs = scanValue f d cs) ∧
    (∀ d cs, 2 * cs.length + 1 ≤ f → scanMembers (f + 1) d cs = scanMembers f d cs) ∧
    (∀ d cs, 2 * cs.length + 2 ≤ f → scanElements (f + 1) d cs = scanElements f d cs) := by
  induction f with
  | zero =>
    refine ⟨?_, ?_, ?_⟩ <;> intro d cs h <;> omega
  | succ f ih =>
    exact ⟨scanValue_fuel_step f ih.2.1 ih.2.2, scanMembers_fuel_step f ih.1 ih.2.1,
      scanElements_fuel_step f ih.1 ih.2.2⟩

/-- The fuel `scanText` gives is enough: any larger amount scans the same
result, so no text is rejected for lack of fuel. -/
theorem scanText_fuel (cs : List Char) (k : Nat) :
    scanValue (2 * cs.length + 2 + k) 0 cs = scanText cs := by
  induction k with
  | zero => rfl
  | succ k ih =>
    rw [← ih]
    exact (scan_fuel_succ (2 * cs.length + 2 + k)).1 0 cs (by omega)

/-! ## Lemmas: the string scanner reads back what the encoder writes -/

theorem scanString_lit (c : Char) (tail : List Char) (h1 : c.toNat ≠ 34) (h2 : c.toNat ≠ 92)
    (h3 : 32 ≤ c.toNat) :
    scanString (c :: tail) = (scanString tail).map (fun us => Unit16.lit c :: us) := by
  rw [scanString.eq_def]
  simp [h1, h2, Nat.not_lt.mpr h3]

theorem scanString_esc (e x : Char) (tail : List Char) (h1 : e.toNat ≠ 117)
    (h2 : escChar e = some x) :
    scanString (Char.ofNat 92 :: e :: tail)
      = (scanString tail).map (fun us => Unit16.lit x :: us) := by
  rw [scanString.eq_def]
  simp [h1, h2]

theorem scanString_escU (a b c d : Char) (n : Nat) (tail : List Char)
    (h : hex4 a b c d = some n) :
    scanString (Char.ofNat 92 :: Char.ofNat 117 :: a :: b :: c :: d :: tail)
      = (scanString tail).map (fun us => Unit16.esc n :: us) := by
  rw [scanString.eq_def]
  simp [h]

theorem hex4_low : ∀ n, n < 128 →
    hex4 (Char.ofNat 48) (Char.ofNat 48) (hexDigit (n / 16)) (hexDigit (n % 16)) = some n := by
  decide

theorem unquoteFrom_lit (c : Char) (ws : List Unit16) :
    unquoteFrom none (Unit16.lit c :: ws) = c :: unquoteFrom none ws := by
  simp [unquoteFrom]

theorem unquoteFrom_esc (c : Char) (ws : List Unit16) (h : c.toNat < 0xD800) :
    unquoteFrom none (Unit16.esc c.toNat :: ws) = c :: unquoteFrom none ws := by
  have h1 : ¬ (0xD800 ≤ c.toNat ∧ c.toNat < 0xDC00) := by omega
  have h2 : ¬ (0xD800 ≤ c.toNat ∧ c.toNat < 0xE000) := by omega
  simp only [unquoteFrom, h1, if_false, runeOf, h2, Char.ofNat_toNat]

theorem char_eq_of_toNat (c : Char) (n : Nat) (h : c.toNat = n) : c = Char.ofNat n := by
  rw [← h, Char.ofNat_toNat]

/-- One character: scanning its escaped form yields one unit that unquotes
to the character. -/
theorem scanString_quoteChar (g : Bool) (c : Char) (tail : List Char) (us : List Unit16)
    (r : List Char) (h : scanString tail = .ok us r) :
    ∃ u, scanString (quoteChar g c ++ tail) = .ok (u :: us) r ∧
      ∀ ws, unquoteFrom none (u :: ws) = c :: unquoteFrom none ws := by
  by_cases h128 : c.toNat < 128
  · by_cases hs : htmlSafe c.toNat = true
    · have hs2 : 32 ≤ c.toNat ∧ c.toNat ≠ 34 ∧ c.toNat ≠ 92 := by
        simp [htmlSafe] at hs; omega
      refine ⟨.lit c, ?_, unquoteFrom_lit c⟩
      simp [quoteChar, h128, hs, scanString_lit c tail hs2.2.1 hs2.2.2 hs2.1, h, Scan.map]
    · by_cases h92 : c.toNat = 92 ∨ c.toNat = 34
      · refine ⟨.lit c, ?_, unquoteFrom_lit c⟩
        have he : escChar c = some c := by
          rcases h92 with h92 | h92 <;> simp [escChar, h92] <;>
            exact (char_eq_of_toNat c _ h92).symm
        have hu : c.toNat ≠ 117 := by omega
        simp [quoteChar, h128, hs, h92, scanString_esc c c tail hu he, h, Scan.map]
      · by_cases hb : c.toNat = 8 ∧ g = true
        · refine ⟨.lit c, ?_, unquoteFrom_lit c⟩
          have hc := char_eq_of_toNat c _ hb.1
          have hg := hb.2
          subst hc hg
          simp [quoteChar, htmlSafe, scanString_esc (Char.ofNat 98) (Char.ofNat 8) tail (by decide) (by decide), h, Scan.map]
        · by_cases hf : c.toNat = 12 ∧ g = true
          · refine ⟨.lit c, ?_, unquoteFrom_lit c⟩
            have hc := char_eq_of_toNat c _ hf.1
            have hg := hf.2
            subst hc hg
            simp [quoteChar, htmlSafe, scanString_esc (Char.ofNat 102) (Char.ofNat 12) tail (by decide) (by decide), h, Scan.map]
          · by_cases hn : c.toNat = 10
            · refine ⟨.lit c, ?_, unquoteFrom_lit c⟩
              have hc := char_eq_of_toNat c _ hn
              subst hc
              simp [quoteChar, htmlSafe, scanString_esc (Char.ofNat 110) (Char.ofNat 10) tail (by decide) (by decide), h, Scan.map]
            · by_cases hr : c.toNat = 13
              · refine ⟨.lit c, ?_, unquoteFrom_lit c⟩
                have hc := char_eq_of_toNat c _ hr
                subst hc
                simp [quoteChar, htmlSafe, scanString_esc (Char.ofNat 114) (Char.ofNat 13) tail (by decide) (by decide), h, Scan.map]
              · by_cases ht : c.toNat = 9
                · refine ⟨.lit c, ?_, unquoteFrom_lit c⟩
                  have hc := char_eq_of_toNat c _ ht
                  subst hc
                  simp [quoteChar, htmlSafe, scanString_esc (Char.ofNat 116) (Char.ofNat 9) tail (by decide) (by decide), h, Scan.map]
                · refine ⟨.esc c.toNat, ?_, fun ws => unquoteFrom_esc c ws (by omega)⟩
                  simp [quoteChar, h128, hs, h92, hb, hf, hn, hr, ht,
                    scanString_escU _ _ _ _ _ tail (hex4_low c.toNat h128), h, Scan.map]
  · by_cases hl : c.toNat = 0x2028 ∨ c.toNat = 0x2029
    · refine ⟨.esc c.toNat, ?_, fun ws => unquoteFrom_esc c ws (by omega)⟩
      have hx : hex4 (Char.ofNat 50) (Char.ofNat 48) (Char.ofNat 50) (hexDigit (c.toNat % 16))
          = some c.toNat := by
        rcases hl with hl | hl <;> rw [hl] <;> decide
      simp [quoteChar, h128, hl, scanString_escU _ _ _ _ _ tail hx, h, Scan.map]
    · refine ⟨.lit c, ?_, unquoteFrom_lit c⟩
      have h1 : c.toNat ≠ 34 := by omega
      have h2 : c.toNat ≠ 92 := by omega
      simp [quoteChar, h128, hl, scanString_lit c tail h1 h2 (by omega), h, Scan.map]

/-- A whole string: scanning its escaped form up to the closing quote yields
units that unquote to the string. -/
theorem scanString_quoteChars (g : Bool) (cs rest : List Char) :
    ∃ us, scanString (quoteChars g cs ++ Char.ofNat 34 :: rest) = .ok us rest ∧
      unquoteFrom none us = cs := by
  induction cs with
  | nil =>
    refine ⟨[], ?_, by simp [unquoteFrom]⟩
    rw [quoteChars, List.nil_append, scanString.eq_def]
    simp
  | cons c cs ih =>
    obtain ⟨us, h1, h2⟩ := ih
    obtain ⟨u, h3, h4⟩ := scanString_quoteChar g c _ us rest h1
    refine ⟨u :: us, ?_, ?_⟩
    · simpa [quoteChars, List.append_assoc] using h3
    · rw [h4, h2]

theorem skipSpace_of_not_space (c : Char) (cs : List Char) (h : isSpace c = false) :
    skipSpace (c :: cs) = c :: cs := by
  simp [skipSpace, h]

/-- Scanning the literal of a string gives the string back. -/
theorem scanString_quoteString (g : Bool) (s : String) (rest : List Char) :
    (scanString (quoteChars g s.data ++ Char.ofNat 34 :: rest)).map
      (fun us => Value.str (unquoteUnits us)) = .ok (.str s) rest := by
  obtain ⟨us, h1, h2⟩ := scanString_quoteChars g s.data rest
  rw [h1]
  simp [Scan.map, unquoteUnits, h2]

/-- The scanner reads a one-member object written by the encoder. -/
theorem scanValue_entry (g : Bool) (k v : String) (fuel : Nat) (rest : List Char) :
    scanValue (fuel + 3) 0
      (Char.ofNat 123 :: (encodeEntries g [(k, v)] ++ Char.ofNat 125 :: rest))
      = .ok (.obj [(k, .str v)]) rest := by
  obtain ⟨uk, hk1, hk2⟩ := scanString_quoteChars g k.data
    (Char.ofNat 58 :: Char.ofNat 34 ::
      (quoteChars g v.data ++ Char.ofNat 34 :: Char.ofNat 125 :: rest))
  obtain ⟨uv, hv1, hv2⟩ := scanString_quoteChars g v.data (Char.ofNat 125 :: rest)
  have e1 : encodeEntries g [(k, v)] ++ Char.ofNat 125 :: rest
      = Char.ofNat 34 :: (quoteChars g k.data ++ Char.ofNat 34 :: Char.ofNat 58 ::
          Char.ofNat 34 :: (quoteChars g v.data ++ Char.ofNat 34 :: Char.ofNat 125 :: rest)) := by
    simp [encodeEntries, quoteString, List.append_assoc]
  have s34 : ∀ cs, skipSpace (Char.ofNat 34 :: cs) = Char.ofNat 34 :: cs :=
    fun cs => skipSpace_of_not_space _ cs (by decide)
  have s58 : ∀ cs, skipSpace (Char.ofNat 58 :: cs) = Char.ofNat 58 :: cs :=
    fun cs => skipSpace_of_not_space _ cs (by decide)
  have s125 : ∀ cs, skipSpace (Char.ofNat 125 :: cs) = Char.ofNat 125 :: cs :=
    fun cs => skipSpace_of_not_space _ cs (by decide)
  have s123 : ∀ cs, skipSpace (Char.ofNat 123 :: cs) = Char.ofNat 123 :: cs :=
    fun cs => skipSpace_of_not_space _ cs (by decide)
  rw [e1, scanValue, s123]
  simp only [s34, scanMembers, hk1, Scan.bind, s58, scanValue, hv1, Scan.map, s125]
  simp [maxNestingDepth, unquoteUnits, hk2, hv2, s125]

/-- The scanner reads the text the encoder writes for a one-entry map. -/
theorem scanText_encode (g : Bool) (k v : String) :
    scanText (encodeStringMap g [(k, v)]).data = .ok (.obj [(k, .str v)]) [Char.ofNat 10] := by
  have hlen : ∃ n, 2 * (encodeStringMap g [(k, v)]).data.length + 2 = n + 3 := by
    refine ⟨2 * (encodeStringMap g [(k, v)]).data.length - 1, ?_⟩
    simp [encodeStringMap, encodeEntries, quoteString]
    omega
  obtain ⟨n, hn⟩ := hlen
  rw [scanText, hn]
  have := scanValue_entry g k v n [Char.ofNat 10]
  simpa [encodeStringMap] using this

/-- The client decodes the body the server encodes: the map holds the one
entry that was written. -/
theorem unmarshal_encode (g : Bool) (k v : String) :
    unmarshalStringMap (encodeStringMap g [(k, v)]) = .ok (some [(k, v)]) := by
  rw [unmarshalStringMap, scanText_encode]
  simp [skipSpace, isSpace, decodeStringMap, mapStep, setEntry]

end Json

namespace Server

open Json

/-! ## Lemmas: decoding into `Cotacao` -/

theorem foldl_filter_of_ignore {α β : Type} (f : β → α → β) (p : α → Bool)
    (h : ∀ b a, p a = false → f b a = b) (ms : List α) (b : β) :
    ms.foldl f b = (ms.filter p).foldl f b := by
  induction ms generalizing b with
  | nil => rfl
  | cons m ms ih =>
    by_cases hp : p m = true
    · simp [List.filter, hp, ih]
    · have hp2 : p m = false := by simpa using hp
      simp [List.filter, hp2, h b m hp2, ih]

theorem foldl_invariant {α β : Type} (f : β → α → β) (P : β → Prop) (ms : List α)
    (h : ∀ b a, a ∈ ms → P b → P (f b a)) (b : β) (hb : P b) : P (ms.foldl f b) := by
  induction ms generalizing b with
  | nil => exact hb
  | cons m ms ih =>
    simp only [List.foldl_cons]
    exact ih (fun b a ha => h b a (List.mem_cons_of_mem _ ha)) _
      (h b m (List.mem_cons_self _ _) hb)

theorem foldName_bid : foldName "bid" = [66, 73, 68] := by decide

theorem fieldIndex_bid (k : String) (h : sameField "bid" k = true) :
    fieldIndex usdbrlTags k = some 7 := by
  have hk : foldName k = [66, 73, 68] := by
    rw [← foldName_bid]; exact (of_decide_eq_true h).symm
  simp only [usdbrlTags, fieldIndex, sameField, hk]
  decide

theorem fieldIndex_sound (ts : List String) (k : String) (i : Nat)
    (h : fieldIndex ts k = some i) : ∃ t, ts[i]? = some t ∧ sameField t k = true := by
  induction ts generalizing i with
  | nil => simp [fieldIndex] at h
  | cons t ts ih =>
    by_cases ht : sameField t k = true
    · simp only [fieldIndex, ht, if_true, Option.some.injEq] at h
      subst h
      exact ⟨t, by simp, ht⟩
    · simp only [fieldIndex, ht, Bool.false_eq_true, if_false, Option.map_eq_some'] at h
      obtain ⟨i0, h0, h1⟩ := h
      obtain ⟨t0, h2, h3⟩ := ih i0 h0
      subst h1
      exact ⟨t0, by simpa using h2, h3⟩

theorem sameField_of_fieldIndex (k : String) (h : fieldIndex usdbrlTags k = some 7) :
    sameField "bid" k = true := by
  obtain ⟨t, h1, h2⟩ := fieldIndex_sound _ _ _ h
  have : t = "bid" := by
    simp [usdbrlTags] at h1
    exact h1.symm
  rw [← this]; exact h2

theorem set_Bid_of_ne (u : CotacaoUsdbrl) (i : Nat) (s : String) (h : i ≠ 7) :
    (u.set i s).Bid = u.Bid := by
  unfold CotacaoUsdbrl.set
  split <;> first | rfl | exact absurd rfl h

theorem fieldStep_err (st : CotacaoUsdbrl × Option GoError) (m : String × Value)
    (h : fieldOk m = true) : (fieldStep st m).2 = st.2 := by
  unfold fieldOk at h
  unfold fieldStep
  split at h <;> simp_all

theorem fieldStep_Bid_of_not (st : CotacaoUsdbrl × Option GoError) (m : String × Value)
    (h : sameField "bid" m.1 = false) : (fieldStep st m).1.Bid = st.1.Bid := by
  unfold fieldStep
  cases hi : fieldIndex usdbrlTags m.1 with
  | none => rfl
  | some i =>
    have hne : i ≠ 7 := by
      intro h7
      rw [h7] at hi
      rw [sameField_of_fieldIndex _ hi] at h
      exact Bool.noConfusion h
    cases hv : m.2 <;> simp [set_Bid_of_ne _ _ _ hne]

theorem fieldStep_Bid_of_str (st : CotacaoUsdbrl × Option GoError) (k v : String)
    (h : sameField "bid" k = true) : (fieldStep st (k, .str v)).1.Bid = v := by
  simp [fieldStep, fieldIndex_bid k h, CotacaoUsdbrl.set]

theorem foldl_fieldStep_err (inner : List (String × Value))
    (st : CotacaoUsdbrl × Option GoError) (h : inner.all fieldOk = true) :
    (inner.foldl fieldStep st).2 = st.2 := by
  apply foldl_invariant fieldStep (fun b => b.2 = st.2) inner _ st rfl
  intro b a ha hb
  rw [fieldStep_err b a (List.all_eq_true.mp h a ha)]
  exact hb

theorem foldl_fieldStep_Bid_of_none (inner : List (String × Value))
    (st : CotacaoUsdbrl × Option GoError)
    (h : ∀ m ∈ inner, sameField "bid" m.1 = false) :
    (inner.foldl fieldStep st).1.Bid = st.1.Bid := by
  apply foldl_invariant fieldStep (fun b => b.1.Bid = st.1.Bid) inner _ st rfl
  intro b a ha hb
  rw [fieldStep_Bid_of_not b a (h a ha)]
  exact hb

theorem foldl_fieldStep_Bid (inner : List (String × Value))
    (st : CotacaoUsdbrl × Option GoError) (kb v : String)
    (h : inner.filter (fun m => sameField "bid" m.1) = [(kb, .str v)]) :
    (inner.foldl fieldStep st).1.Bid = v := by
  induction inner generalizing st with
  | nil => simp at h
  | cons m ms ih =>
    by_cases hm : sameField "bid" m.1 = true
    · simp only [List.filter_cons, hm, if_true, List.cons.injEq] at h
      obtain ⟨h1, h2⟩ := h
      have hnone : ∀ x ∈ ms, sameField "bid" x.1 = false := by
        intro x hx
        have := List.filter_eq_nil_iff.mp h2 x hx
        simpa using this
      rw [List.foldl_cons, foldl_fieldStep_Bid_of_none ms _ hnone, h1]
      apply fieldStep_Bid_of_str
      rw [h1] at hm
      exact hm
    · simp only [List.filter_cons, hm, Bool.false_eq_true, if_false] at h
      rw [List.foldl_cons]
      exact ih _ h

theorem cotacaoStep_of_not (st : Cotacao × Option GoError) (m : String × Value)
    (h : (fun m : String × Value => sameField "USDBRL" m.1) m = false) :
    cotacaoStep st m = st := by
  simp only at h
  simp [cotacaoStep, h]

/-- A document with an accepted bid decodes without error into a struct
whose `Bid` is that bid. -/
theorem decodeCotacao_acceptedBid (j : Value) (v : String) (c : Cotacao)
    (h : acceptedBid j = some v) :
    (decodeCotacao j c).2 = none ∧ (decodeCotacao j c).1.Usdbrl.Bid = v := by
  unfold acceptedBid at h
  split at h
  · rename_i outer
    split at h
    · rename_i k inner hf
      split at h
      · rename_i hall
        split at h
        · rename_i kb s hb
          simp only [Option.some.injEq] at h
          subst h
          have hk : sameField "USDBRL" k = true := by
            have : (k, Value.obj inner) ∈ outer.filter (fun m => sameField "USDBRL" m.1) := by
              rw [hf]; exact List.mem_singleton.mpr rfl
            exact (List.mem_filter.mp this).2
          simp only [decodeCotacao]
          rw [foldl_filter_of_ignore cotacaoStep _ cotacaoStep_of_not, hf]
          simp only [List.foldl_cons, List.foldl_nil, cotacaoStep, hk, if_true]
          exact ⟨foldl_fieldStep_err inner _ hall, foldl_fieldStep_Bid inner _ kb s hb⟩
        · simp at h
      · simp at h
    · simp at h
  · simp at h

theorem fieldStep_noBid (st : CotacaoUsdbrl × Option GoError) (m : String × Value)
    (h : fieldNoBid m = true) :
    (fieldStep st m).2 = st.2 ∧ (fieldStep st m).1.Bid = st.1.Bid := by
  unfold fieldNoBid at h
  split at h
  · rename_i hi
    simp [fieldStep, hi]
  · rename_i i s hi hv
    have hb : sameField "bid" m.1 = false := by simpa using h
    refine ⟨?_, fieldStep_Bid_of_not st m hb⟩
    simp [fieldStep, hi, hv]
  · rename_i i hi hv
    simp [fieldStep, hi, hv]
  · simp at h

theorem cotacaoStep_noBid (st : Cotacao × Option GoError) (m : String × Value)
    (h : memberNoBid m = true) :
    (cotacaoStep st m).2 = st.2 ∧ (cotacaoStep st m).1.Usdbrl.Bid = st.1.Usdbrl.Bid := by
  unfold memberNoBid at h
  by_cases hk : sameField "USDBRL" m.1 = true
  · simp only [hk, Bool.not_true, Bool.false_or] at h
    split at h
    · rename_i hv
      simp [cotacaoStep, hk, hv]
    · rename_i inner hv
      simp only [cotacaoStep, hk, if_true, hv]
      have := foldl_invariant fieldStep
        (fun b => b.2 = st.2 ∧ b.1.Bid = st.1.Usdbrl.Bid) inner
        (fun b a ha hb => by
          have hs := fieldStep_noBid b a (List.all_eq_true.mp h a ha)
          exact ⟨hs.1.trans hb.1, hs.2.trans hb.2⟩)
        (st.1.Usdbrl, st.2) ⟨rfl, rfl⟩
      exact this
    · simp at h
  · simp [cotacaoStep, hk]

/-- An object without a `USDBRL.bid` string decodes without error and
leaves `Bid` as it was. -/
theorem decodeCotacao_withoutBid (j : Value) (c : Cotacao) (h : objectWithoutBid j = true) :
    (decodeCotacao j c).2 = none ∧ (decodeCotacao j c).1.Usdbrl.Bid = c.Usdbrl.Bid := by
  unfold objectWithoutBid at h
  split at h
  · rename_i outer
    simp only [decodeCotacao]
    exact foldl_invariant cotacaoStep
      (fun b => b.2 = none ∧ b.1.Usdbrl.Bid = c.Usdbrl.Bid) outer
      (fun b a ha hb => by
        have hs := cotacaoStep_noBid b a (List.all_eq_true.mp h a ha)
        exact ⟨hs.1.trans hb.1, hs.2.trans hb.2⟩)
      (c, none) ⟨rfl, rfl⟩
  · simp at h

/-! ## The request handler -/

/-- The result of `obterCotacao` does not depend on the state it runs in. -/
theorem obterCotacao_fst (env : Env) (wd wd2 : World) :
    (obterCotacao env wd).1 = (obterCotacao env wd2).1 := by
  unfold obterCotacao
  cases env.newRequest with
  | some e => rfl
  | none =>
    simp only
    cases clientDo endpointCambio timeoutHttp env.roundTrip with
    | error e => rfl
    | ok resp =>
      simp only
      cases (decodeBody resp.2 Cotacao.zero).2 <;> rfl

/-- Claim C1, as amended. For every upstream response whose body is an
object with exactly one member named `USDBRL` (names compared without regard
to case, as the decoder compares them), that member being an object in which
every member named after a field of the struct holds a string or `null` and
exactly one member is named `bid`, holding the string `v`: when the database
handle opens and the insert completes in time, `cotacaoHandler` answers
status 200 with `Content-Type: application/json` and a body that is the JSON
object with the one member `bid` holding the string `v` itself, and table
`cotacoes` gains exactly one row, whose `valor` is `v`. -/
theorem C1_quote_served (env : Env) (db : Database) (h status after now : Nat)
    (body : Body) (j : Value) (v : String)
    (hopen : env.sqlOpen = .ok h) (hreq : env.newRequest = none)
    (hnet : clientDo endpointCambio timeoutHttp env.roundTrip = .ok (status, body))
    (hread : readValue body = .ok j) (hwf : acceptedBid j = some v)
    (hexec : env.exec = .completes after now) (hafter : after ≤ timeoutDb) :
    (cotacaoHandler env (request db)).w.status = some 200 ∧
    (cotacaoHandler env (request db)).w.headerGet "Content-Type" = some "application/json" ∧
    (cotacaoHandler env (request db)).w.body = encodeStringMap env.go122 [("bid", v)] ∧
    scanText (cotacaoHandler env (request db)).w.body.data
      = .ok (.obj [("bid", .str v)]) [Char.ofNat 10] ∧
    (cotacaoHandler env (request db)).db.cotacoes = db.cotacoes ++ [⟨db.nextId, v, now⟩] ∧
    (cotacaoHandler env (request db)).db.cotacoes.length = db.cotacoes.length + 1 := by
  have hd := decodeCotacao_acceptedBid j v Cotacao.zero hwf
  have hb : (cotacaoHandler env (request db)).w.body = encodeStringMap env.go122 [("bid", v)] := by
    simp [cotacaoHandler, conectarBanco, hopen, obterCotacao, hreq, hnet,
      decodeBody, hread, hd.1, hd.2, salvarCotacao, hexec, hafter, write, writeHeader,
      headerSet, dbClose, World.emit, request, ResponseWriter.fresh]
  refine ⟨?_, ?_, hb, ?_, ?_, ?_⟩
  · simp [cotacaoHandler, conectarBanco, hopen, obterCotacao, hreq, hnet,
      decodeBody, hread, hd.1, hd.2, salvarCotacao, hexec, hafter, write, writeHeader,
      headerSet, dbClose, World.emit, request, ResponseWriter.fresh]
  · simp [cotacaoHandler, conectarBanco, hopen, obterCotacao, hreq, hnet,
      decodeBody, hread, hd.1, hd.2, salvarCotacao, hexec, hafter, write, writeHeader,
      headerSet, dbClose, World.emit, request, ResponseWriter.fresh, setEntry,
      ResponseWriter.headerGet]
  · rw [hb]; exact scanText_encode _ _ _
  · simp [cotacaoHandler, conectarBanco, hopen, obterCotacao, hreq, hnet,
      decodeBody, hread, hd.1, hd.2, salvarCotacao, hexec, hafter, write, writeHeader,
      headerSet, dbClose, World.emit, request, ResponseWriter.fresh, Database.insert]
  · simp [cotacaoHandler, conectarBanco, hopen, obterCotacao, hreq, hnet,
      decodeBody, hread, hd.1, hd.2, salvarCotacao, hexec, hafter, write, writeHeader,
      headerSet, dbClose, World.emit, request, ResponseWriter.fresh, Database.insert]

/-- Claim C2. Whenever `obterCotacao` fails, `cotacaoHandler` answers status
500 with the text of the fetch error as body (the line `http.Error` writes),
never calls `salvarCotacao` and leaves the database as it was; the three
causes of failure (request construction, network failure or the 200 ms
deadline, decoding) each make `obterCotacao` fail; and whatever happens, a row
that a request adds holds the bid of an upstream body that decoded without
error. -/
theorem C2_fetch_failure :
    (∀ (env : Env) (db : Database) (h : Nat) (e : GoError),
      env.sqlOpen = .ok h → (obterCotacao env (request db)).1 = .error e →
        (cotacaoHandler env (request db)).w.status = some 500 ∧
        (cotacaoHandler env (request db)).w.body = e.Error ++ "\n" ∧
        (∀ d q a dl, Effect.execContext d q a dl ∉ (cotacaoHandler env (request db)).trace) ∧
        (cotacaoHandler env (request db)).db = db) ∧
    (∀ (env : Env) (wd : World) (e : GoError),
      env.newRequest = some e → (obterCotacao env wd).1 = .error e) ∧
    (∀ (env : Env) (wd : World) (e : GoError),
      env.newRequest = none → env.roundTrip = .fails e →
        (obterCotacao env wd).1 = .error (.urlError "Get" endpointCambio e)) ∧
    (∀ (env : Env) (wd : World) (t status : Nat) (b : Body),
      env.newRequest = none → env.roundTrip = .replies t status b → timeoutHttp < t →
        (obterCotacao env wd).1 = .error (.urlError "Get" endpointCambio .deadlineExceeded)) ∧
    (∀ (env : Env) (wd : World) (t status : Nat) (b : Body) (e : GoError),
      env.newRequest = none → env.roundTrip = .replies t status b → t ≤ timeoutHttp →
        (decodeBody b Cotacao.zero).2 = some e → (obterCotacao env wd).1 = .error e) ∧
    (∀ (env : Env) (db : Database),
      (cotacaoHandler env (request db)).db = db ∨
      ∃ t status b now, env.roundTrip = .replies t status b ∧
        (decodeBody b Cotacao.zero).2 = none ∧
        (cotacaoHandler env (request db)).db.cotacoes
          = db.cotacoes ++ [⟨db.nextId, (decodeBody b Cotacao.zero).1.Usdbrl.Bid, now⟩]) := by
  refine ⟨?_, ?_, ?_, ?_, ?_, ?_⟩
  · intro env db h e hopen hfail
    have hf : ∀ wd, (obterCotacao env wd).1 = .error e :=
      fun wd => (obterCotacao_fst env wd (request db)).trans hfail
    have hsnd : ∀ wd, (obterCotacao env wd).2.w = wd.w ∧ (obterCotacao env wd).2.db = wd.db ∧
        ∀ d q a dl, Effect.execContext d q a dl ∈ (obterCotacao env wd).2.trace →
          Effect.execContext d q a dl ∈ wd.trace := by
      intro wd
      unfold obterCotacao
      cases env.newRequest with
      | some e => simp
      | none =>
        simp only
        cases clientDo endpointCambio timeoutHttp env.roundTrip with
        | error e => simp [World.emit]
        | ok resp =>
          simp only
          cases (decodeBody resp.2 Cotacao.zero).2 <;> simp [World.emit]
    have key : cotacaoHandler env (request db)
        = dbClose h (httpError e.Error 500 (logPrintf ("Erro ao acesar o endpoint: " ++ e.Error)
            (obterCotacao env ((request db).emit (.sqlOpen "sqlite3" dbFile))).2)) := by
      have h1 := hf ((request db).emit (.sqlOpen "sqlite3" dbFile))
      simp only [cotacaoHandler, conectarBanco, hopen]
      generalize obterCotacao env ((request db).emit (.sqlOpen "sqlite3" dbFile)) = r at h1 ⊢
      obtain ⟨r1, r2⟩ := r
      simp only at h1
      subst h1
      rfl
    have hs := hsnd ((request db).emit (.sqlOpen "sqlite3" dbFile))
    rw [key]
    simp only [World.emit, request, ResponseWriter.fresh, List.nil_append] at hs
    obtain ⟨hs1, hs2, hs3⟩ := hs
    refine ⟨?_, ?_, ?_, ?_⟩
    · simp [dbClose, httpError, write, writeHeader, headerSet, logPrintf, World.emit, hs1,
        request, ResponseWriter.fresh]
    · simp [dbClose, httpError, write, writeHeader, headerSet, logPrintf, World.emit, hs1,
        request, ResponseWriter.fresh]
    · intro d q a dl hmem
      simp only [dbClose, httpError, write, writeHeader, headerSet, logPrintf, World.emit,
        request, ResponseWriter.fresh, List.nil_append,
        List.mem_append, List.mem_singleton] at hmem
      simp only [reduceCtorEq, or_false] at hmem
      have := hs3 d q a dl hmem
      simp at this
    · simp [dbClose, httpError, write, writeHeader, headerSet, logPrintf, World.emit, hs2,
        request, ResponseWriter.fresh]
  · intro env wd e h
    simp [obterCotacao, h]
  · intro env wd e h1 h2
    simp [obterCotacao, h1, h2, clientDo]
  · intro env wd t status b h1 h2 h3
    simp [obterCotacao, h1, h2, clientDo, Nat.not_le.mpr h3]
  · intro env wd t status b e h1 h2 h3 h4
    simp [obterCotacao, h1, h2, clientDo, h3, h4]
  · intro env db
    obtain ⟨so, nr, rt, ex, g⟩ := env
    cases so with
    | error e =>
      left
      simp [cotacaoHandler, conectarBanco, httpError, write, writeHeader, headerSet,
        World.emit, request]
    | ok h =>
      cases nr with
      | some e =>
        left
        simp [cotacaoHandler, conectarBanco, obterCotacao, httpError, write, writeHeader,
          headerSet, logPrintf, dbClose, World.emit, request]
      | none =>
        cases rt with
        | fails e =>
          left
          simp [cotacaoHandler, conectarBanco, obterCotacao, clientDo, httpError, write,
            writeHeader, headerSet, logPrintf, dbClose, World.emit, request]
        | replies t status b =>
          by_cases ht : t ≤ timeoutHttp
          · cases hd : (decodeBody b Cotacao.zero).2 with
            | some e =>
              left
              simp [cotacaoHandler, conectarBanco, obterCotacao, clientDo, ht, hd, httpError,
                write, writeHeader, headerSet, logPrintf, dbClose, World.emit, request]
            | none =>
              cases ex with
              | fails e =>
                left
                simp [cotacaoHandler, conectarBanco, obterCotacao, clientDo, ht, hd,
                  salvarCotacao, httpError, write, writeHeader, headerSet, logPrintf, dbClose,
                  World.emit, request]
              | completes after now =>
                by_cases ha : after ≤ timeoutDb
                · right
                  refine ⟨t, status, b, now, rfl, hd, ?_⟩
                  simp [cotacaoHandler, conectarBanco, obterCotacao, clientDo, ht, hd,
                    salvarCotacao, ha, write, writeHeader, headerSet, dbClose,
                    World.emit, request, Database.insert]
                · left
                  simp [cotacaoHandler, conectarBanco, obterCotacao, clientDo, ht, hd,
                    salvarCotacao, ha, httpError, write, writeHeader, headerSet, logPrintf,
                    dbClose, World.emit, request]
          · left
            simp [cotacaoHandler, conectarBanco, obterCotacao, clientDo, ht, httpError, write,
              writeHeader, headerSet, logPrintf, dbClose, World.emit, request]

/-- The result of `salvarCotacao` does not depend on the state it runs in. -/
theorem salvarCotacao_fst (env : Env) (h : Nat) (c : String) (wd wd2 : World) :
    (salvarCotacao env h c wd).1 = (salvarCotacao env h c wd2).1 := by
  unfold salvarCotacao
  cases env.exec with
  | fails e => rfl
  | completes after now =>
    by_cases ha : after ≤ timeoutDb <;> simp [ha]

/-- Claim C3. Whenever the fetch succeeds but `salvarCotacao` returns an
error (the insert failed, or it did not complete within the 10 ms deadline),
`cotacaoHandler` answers status 500 with a plain-text body that contains the
text of the insert error, and it sends neither the status 200 nor the JSON
body. -/
theorem C3_insert_failure :
    (∀ (env : Env) (db : Database) (h : Nat) (c : String) (e : GoError),
      env.sqlOpen = .ok h → (obterCotacao env (request db)).1 = .ok c →
      (salvarCotacao env h c (request db)).1 = some e →
        (cotacaoHandler env (request db)).w.status = some 500 ∧
        (cotacaoHandler env (request db)).w.headerGet "Content-Type"
          = some "text/plain; charset=utf-8" ∧
        (cotacaoHandler env (request db)).w.body
          = "Erro ao salvar na base de dados:" ++ e.Error ++ "\n" ∧
        e.Error.data <:+: (cotacaoHandler env (request db)).w.body.data ∧
        Effect.writeHeader 200 ∉ (cotacaoHandler env (request db)).trace ∧
        (∀ text, Effect.write text ∈ (cotacaoHandler env (request db)).trace →
          text = "Erro ao salvar na base de dados:" ++ e.Error ++ "\n") ∧
        Effect.write (encodeStringMap env.go122 [("bid", c)])
          ∉ (cotacaoHandler env (request db)).trace) ∧
    (∀ (env : Env) (h : Nat) (c : String) (wd : World) (e : GoError),
      env.exec = .fails e → (salvarCotacao env h c wd).1 = some e) ∧
    (∀ (env : Env) (h : Nat) (c : String) (wd : World) (after now : Nat),
      env.exec = .completes after now → timeoutDb < after →
        (salvarCotacao env h c wd).1 = some .deadlineExceeded) := by
  refine ⟨?_, ?_, ?_⟩
  · intro env db h c e hopen hfetch hsave
    have hf := (obterCotacao_fst env ((request db).emit (.sqlOpen "sqlite3" dbFile))
      (request db)).trans hfetch
    have key : ∃ tr, cotacaoHandler env (request db)
        = dbClose h (httpError ("Erro ao salvar na base de dados:" ++ e.Error) 500
            (logPrintf ("Erro ao salvar na base de dados: " ++ e.Error)
              ⟨db, ResponseWriter.fresh, tr⟩)) ∧
          (∀ x ∈ tr, x = Effect.sqlOpen "sqlite3" dbFile ∨
            x = Effect.httpDo "GET" endpointCambio timeoutHttp ∨
            x = Effect.execContext h "INSERT INTO cotacoes (valor) VALUES (?)" c timeoutDb) := by
      obtain ⟨so, nr, rt, ex, g⟩ := env
      simp only at hopen
      subst hopen
      cases nr with
      | some e0 => simp [obterCotacao] at hf
      | none =>
        cases rt with
        | fails e0 => simp [obterCotacao, clientDo] at hf
        | replies t status b =>
          by_cases ht : t ≤ timeoutHttp
          · cases hd : (decodeBody b Cotacao.zero).2 with
            | some e0 => simp [obterCotacao, clientDo, ht, hd] at hf
            | none =>
              simp only [obterCotacao, clientDo, ht, hd, if_true, Except.ok.injEq] at hf
              cases ex with
              | fails e0 =>
                simp only [salvarCotacao, Option.some.injEq] at hsave
                subst hsave
                refine ⟨[Effect.sqlOpen "sqlite3" dbFile,
                    Effect.httpDo "GET" endpointCambio timeoutHttp,
                    Effect.execContext h "INSERT INTO cotacoes (valor) VALUES (?)" c timeoutDb],
                  ?_, ?_⟩
                · simp only [cotacaoHandler, conectarBanco, obterCotacao, clientDo, ht, hd,
                    if_true, salvarCotacao, hf, World.emit, request, List.nil_append]
                  rfl
                · intro x hx
                  simp only [List.cons_append, List.nil_append, List.mem_cons,
                    List.mem_singleton, List.not_mem_nil, or_false] at hx
                  exact hx
              | completes after now =>
                by_cases ha : after ≤ timeoutDb
                · simp [salvarCotacao, ha] at hsave
                · simp only [salvarCotacao, ha, if_false, Option.some.injEq] at hsave
                  subst hsave
                  refine ⟨[Effect.sqlOpen "sqlite3" dbFile,
                    Effect.httpDo "GET" endpointCambio timeoutHttp,
                    Effect.execContext h "INSERT INTO cotacoes (valor) VALUES (?)" c timeoutDb],
                  ?_, ?_⟩
                  · simp only [cotacaoHandler, conectarBanco, obterCotacao, clientDo, ht, hd,
                      if_true, salvarCotacao, ha, if_false, hf, World.emit, request,
                      List.nil_append]
                    rfl
                  · intro x hx
                    simp only [List.cons_append, List.nil_append, List.mem_cons,
                      List.mem_singleton, List.not_mem_nil, or_false] at hx
                    exact hx
          · simp [obterCotacao, clientDo, ht] at hf
    obtain ⟨tr, hk, htr⟩ := key
    rw [hk]
    have hbody : (dbClose h (httpError ("Erro ao salvar na base de dados:" ++ e.Error) 500
            (logPrintf ("Erro ao salvar na base de dados: " ++ e.Error)
              ⟨db, ResponseWriter.fresh, tr⟩))).w.body
        = "Erro ao salvar na base de dados:" ++ e.Error ++ "\n" := by
      simp [dbClose, httpError, write, writeHeader, headerSet, logPrintf, World.emit,
        ResponseWriter.fresh, String.append_assoc]
    have hwrites : ∀ text, Effect.write text ∈ (dbClose h (httpError
        ("Erro ao salvar na base de dados:" ++ e.Error) 500
            (logPrintf ("Erro ao salvar na base de dados: " ++ e.Error)
              ⟨db, ResponseWriter.fresh, tr⟩))).trace →
          text = "Erro ao salvar na base de dados:" ++ e.Error ++ "\n" := by
      intro text hmem
      simp only [dbClose, httpError, write, writeHeader, headerSet, logPrintf, World.emit,
        List.mem_append, List.mem_singleton, reduceCtorEq, or_false, false_or,
        Effect.write.injEq] at hmem
      rcases hmem with hmem | hmem
      · rcases htr _ hmem with h1 | h1 | h1 <;> simp at h1
      · rw [hmem, String.append_assoc]
    refine ⟨?_, ?_, hbody, ?_, ?_, hwrites, ?_⟩
    · simp [dbClose, httpError, write, writeHeader, headerSet, logPrintf, World.emit,
        ResponseWriter.fresh]
    · simp [dbClose, httpError, write, writeHeader, headerSet, logPrintf, World.emit,
        ResponseWriter.fresh, setEntry, ResponseWriter.headerGet]
    · rw [hbody]
      refine ⟨"Erro ao salvar na base de dados:".data, "\n".data, ?_⟩
      simp [String.data_append]
    · intro hmem
      simp only [dbClose, httpError, write, writeHeader, headerSet, logPrintf, World.emit,
        List.mem_append, List.mem_singleton, reduceCtorEq, or_false, false_or,
        Effect.writeHeader.injEq] at hmem
      rcases hmem with hmem | hmem
      · rcases htr _ hmem with h1 | h1 | h1 <;> simp at h1
      · simp at hmem
    · intro hmem
      have h1 := hwrites _ hmem
      have h2 := congrArg (fun s : String => s.data.head?) h1
      simp [encodeStringMap, String.data_append] at h2
  · intro env h c wd e he
    simp [salvarCotacao, he]
  · intro env h c wd after now he ha
    simp [salvarCotacao, he, Nat.not_le.mpr ha]

/-- Claim C4. Whenever `conectarBanco` returns an error, `cotacaoHandler`
answers status 500 with the fixed message `Erro ao conectar ao banco de
dados` (the line `http.Error` writes) and stops: it performs neither the
upstream fetch nor an insert, and the database is as it was. -/
theorem C4_connection_failure (env : Env) (db : Database) (e : GoError)
    (hopen : (conectarBanco env (request db)).1 = .error e) :
    (cotacaoHandler env (request db)).w.status = some 500 ∧
    (cotacaoHandler env (request db)).w.body = "Erro ao conectar ao banco de dados" ++ "\n" ∧
    (cotacaoHandler env (request db)).w.headerGet "Content-Type"
      = some "text/plain; charset=utf-8" ∧
    (∀ m u dl, Effect.httpDo m u dl ∉ (cotacaoHandler env (request db)).trace) ∧
    (∀ d q a dl, Effect.execContext d q a dl ∉ (cotacaoHandler env (request db)).trace) ∧
    (cotacaoHandler env (request db)).trace
      = [Effect.sqlOpen "sqlite3" dbFile,
         Effect.headerSet "Content-Type" "text/plain; charset=utf-8",
         Effect.headerSet "X-Content-Type-Options" "nosniff",
         Effect.writeHeader 500,
         Effect.write ("Erro ao conectar ao banco de dados" ++ "\n")] ∧
    (cotacaoHandler env (request db)).db = db := by
  have ho : ∃ e0, env.sqlOpen = .error e0 := by
    unfold conectarBanco at hopen
    cases hs : env.sqlOpen with
    | error e0 => exact ⟨e0, rfl⟩
    | ok h => rw [hs] at hopen; simp at hopen
  obtain ⟨e0, he0⟩ := ho
  have ht : (cotacaoHandler env (request db)).trace
      = [Effect.sqlOpen "sqlite3" dbFile,
         Effect.headerSet "Content-Type" "text/plain; charset=utf-8",
         Effect.headerSet "X-Content-Type-Options" "nosniff",
         Effect.writeHeader 500,
         Effect.write ("Erro ao conectar ao banco de dados" ++ "\n")] := by
    simp [cotacaoHandler, conectarBanco, he0, httpError, write, writeHeader, headerSet,
      World.emit, request]
  refine ⟨?_, ?_, ?_, ?_, ?_, ht, ?_⟩
  · simp [cotacaoHandler, conectarBanco, he0, httpError, write, writeHeader, headerSet,
      World.emit, request, ResponseWriter.fresh]
  · simp [cotacaoHandler, conectarBanco, he0, httpError, write, writeHeader, headerSet,
      World.emit, request, ResponseWriter.fresh]
  · simp [cotacaoHandler, conectarBanco, he0, httpError, write, writeHeader, headerSet,
      World.emit, request, ResponseWriter.fresh, setEntry, ResponseWriter.headerGet]
  · intro m u dl hmem
    rw [ht] at hmem
    simp at hmem
  · intro d q a dl hmem
    rw [ht] at hmem
    simp at hmem
  · simp [cotacaoHandler, conectarBanco, he0, httpError, write, writeHeader, headerSet,
      World.emit, request]

/-- Claim C7. In every execution of `cotacaoHandler` in which
`conectarBanco` succeeds, the request opens one handle, closes that handle
exactly once, as its last effect, whichever outcome occurs (fetch failure,
insert failure, success), and every statement it executes and every close it
performs is on the handle it opened itself. -/
theorem C7_handle_closed (env : Env) (db : Database) (h : Nat)
    (hopen : (conectarBanco env (request db)).1 = .ok h) :
    (cotacaoHandler env (request db)).trace.getLast? = some (Effect.dbClose h) ∧
    (cotacaoHandler env (request db)).trace.count (Effect.dbClose h) = 1 ∧
    (∀ d, Effect.dbClose d ∈ (cotacaoHandler env (request db)).trace → d = h) ∧
    (∀ d q a dl, Effect.execContext d q a dl ∈ (cotacaoHandler env (request db)).trace →
      d = h) ∧
    (cotacaoHandler env (request db)).trace.head? = some (Effect.sqlOpen "sqlite3" dbFile) ∧
    (cotacaoHandler env (request db)).trace.count (Effect.sqlOpen "sqlite3" dbFile) = 1 := by
  obtain ⟨so, nr, rt, ex, g⟩ := env
  have ho : so = .ok h := by
    unfold conectarBanco at hopen
    cases so with
    | error e0 => simp at hopen
    | ok h0 => simpa using hopen
  subst ho
  cases nr with
  | some e =>
    simp [cotacaoHandler, conectarBanco, obterCotacao, httpError, write, writeHeader,
      headerSet, logPrintf, dbClose, World.emit, request, List.count_cons]
  | none =>
    cases rt with
    | fails e =>
      simp [cotacaoHandler, conectarBanco, obterCotacao, clientDo, httpError, write,
        writeHeader, headerSet, logPrintf, dbClose, World.emit, request, List.count_cons]
    | replies t status b =>
      by_cases ht : t ≤ timeoutHttp
      · cases hd : (decodeBody b Cotacao.zero).2 with
        | some e =>
          simp [cotacaoHandler, conectarBanco, obterCotacao, clientDo, ht, hd,
            httpError, write, writeHeader, headerSet, logPrintf, dbClose, World.emit, request,
            List.count_cons]
        | none =>
          cases ex with
          | fails e =>
            simp [cotacaoHandler, conectarBanco, obterCotacao, clientDo, ht, hd,
              salvarCotacao, httpError, write, writeHeader, headerSet, logPrintf, dbClose,
              World.emit, request, List.count_cons]
            intro d _ _ _ hd2 _ _ _; exact hd2
          | completes after now =>
            by_cases ha : after ≤ timeoutDb
            · simp [cotacaoHandler, conectarBanco, obterCotacao, clientDo, ht, hd,
                salvarCotacao, ha, write, writeHeader, headerSet, dbClose,
                World.emit, request, List.count_cons]
              intro d _ _ _ hd2 _ _ _; exact hd2
            · simp [cotacaoHandler, conectarBanco, obterCotacao, clientDo, ht, hd,
                salvarCotacao, ha, httpError, write, writeHeader,
                headerSet, logPrintf, dbClose, World.emit, request, List.count_cons]
              intro d _ _ _ hd2 _ _ _; exact hd2
      · simp [cotacaoHandler, conectarBanco, obterCotacao, clientDo, ht,
          httpError, write, writeHeader, headerSet, logPrintf, dbClose, World.emit, request,
          List.count_cons]

/-- A request whose fetch and insert both succeed: what it answers and
stores. -/
theorem handler_success (env : Env) (db : Database) (h : Nat) (c : String)
    (hopen : env.sqlOpen = .ok h) (hfetch : (obterCotacao env (request db)).1 = .ok c)
    (hsave : (salvarCotacao env h c (request db)).1 = none) :
    (cotacaoHandler env (request db)).w.status = some 200 ∧
    (cotacaoHandler env (request db)).w.body = encodeStringMap env.go122 [("bid", c)] ∧
    ∃ now, (cotacaoHandler env (request db)).db.cotacoes
      = db.cotacoes ++ [⟨db.nextId, c, now⟩] := by
  obtain ⟨so, nr, rt, ex, g⟩ := env
  simp only at hopen
  subst hopen
  cases nr with
  | some e0 => simp [obterCotacao] at hfetch
  | none =>
    cases rt with
    | fails e0 => simp [obterCotacao, clientDo] at hfetch
    | replies t status b =>
      by_cases ht : t ≤ timeoutHttp
      · cases hd : (decodeBody b Cotacao.zero).2 with
        | some e0 => simp [obterCotacao, clientDo, ht, hd] at hfetch
        | none =>
          simp only [obterCotacao, clientDo, ht, hd, if_true, Except.ok.injEq] at hfetch
          cases ex with
          | fails e0 => simp [salvarCotacao] at hsave
          | completes after now =>
            by_cases ha : after ≤ timeoutDb
            · refine ⟨?_, ?_, now, ?_⟩
              · simp [cotacaoHandler, conectarBanco, obterCotacao, clientDo, ht, hd,
                  salvarCotacao, ha, write, writeHeader, headerSet, dbClose,
                  World.emit, request, ResponseWriter.fresh]
              · simp [cotacaoHandler, conectarBanco, obterCotacao, clientDo, ht, hd, hfetch,
                  salvarCotacao, ha, write, writeHeader, headerSet, dbClose,
                  World.emit, request, ResponseWriter.fresh]
              · simp [cotacaoHandler, conectarBanco, obterCotacao, clientDo, ht, hd, hfetch,
                  salvarCotacao, ha, write, writeHeader, headerSet, dbClose,
                  World.emit, request, Database.insert]
            · simp [salvarCotacao, ha] at hsave
      · simp [obterCotacao, clientDo, ht] at hfetch

/-- Claim C10, as amended. For every upstream response, whatever its HTTP
status, whose body is a JSON object that holds no `USDBRL.bid` string and
that the decoder accepts (every member named `USDBRL` is `null` or an object
whose members named after fields of the struct hold strings or `null`),
`obterCotacao` returns the empty string with no error; hence, when the
database opens and the insert succeeds, `cotacaoHandler` inserts a row whose
`valor` is the empty string and answers 200 with the object whose `bid` is
the empty string as body. -/
theorem C10_object_without_bid (env : Env) (db : Database) (h status after now : Nat)
    (body : Body) (j : Value)
    (hopen : env.sqlOpen = .ok h) (hreq : env.newRequest = none)
    (hnet : clientDo endpointCambio timeoutHttp env.roundTrip = .ok (status, body))
    (hread : readValue body = .ok j) (hno : objectWithoutBid j = true)
    (hexec : env.exec = .completes after now) (hafter : after ≤ timeoutDb) :
    (obterCotacao env (request db)).1 = .ok "" ∧
    (cotacaoHandler env (request db)).w.status = some 200 ∧
    (cotacaoHandler env (request db)).w.body = "\x7b\"bid\":\"\"\x7d\n" ∧
    (cotacaoHandler env (request db)).db.cotacoes = db.cotacoes ++ [⟨db.nextId, "", now⟩] := by
  have hd := decodeCotacao_withoutBid j Cotacao.zero hno
  have hz : Cotacao.zero.Usdbrl.Bid = "" := rfl
  rw [hz] at hd
  have hf : (obterCotacao env (request db)).1 = .ok "" := by
    simp [obterCotacao, hreq, hnet, decodeBody, hread, hd.1, hd.2]
  have hs : (salvarCotacao env h "" (request db)).1 = none := by
    simp [salvarCotacao, hexec, hafter]
  obtain ⟨h1, h2, now2, h3⟩ := handler_success env db h "" hopen hf hs
  refine ⟨hf, h1, ?_, ?_⟩
  · rw [h2]
    cases env.go122 <;> rfl
  · simp [cotacaoHandler, conectarBanco, hopen, obterCotacao, hreq, hnet,
      decodeBody, hread, hd.1, hd.2, salvarCotacao, hexec, hafter, write, writeHeader,
      headerSet, dbClose, World.emit, request, Database.insert]

end Server

namespace Client

open Json

/-! ## The client -/

/-- The result of `obterCotacaoDoServidor` does not depend on the state it
runs in, and the call leaves the file alone. -/
theorem obterCotacaoDoServidor_state (env : Env) (wd wd2 : World) :
    (obterCotacaoDoServidor env wd).1 = (obterCotacaoDoServidor env wd2).1 ∧
    (obterCotacaoDoServidor env wd).2.file = wd.file ∧
    (obterCotacaoDoServidor env wd).2.exit = wd.exit ∧
    ∀ n x p, Effect.writeFile n x p ∈ (obterCotacaoDoServidor env wd).2.trace →
      Effect.writeFile n x p ∈ wd.trace := by
  unfold obterCotacaoDoServidor
  cases env.newRequest with
  | some e => simp
  | none =>
    simp only
    cases Server.clientDo serverURL timeout env.roundTrip with
    | error e => simp [World.emit]
    | ok resp =>
      simp only
      cases readAll resp.2 with
      | error e => simp [World.emit]
      | ok body =>
        simp only
        cases unmarshalStringMap body <;> simp [World.emit]

/-- A run of the client whose fetch fails. -/
theorem main_of_error (env : Env) (file : Option String) (e : GoError)
    (h : (obterCotacaoDoServidor env (start file)).1 = .error e) :
    main env (start file)
      = logFatalf ("Erro ao obter cotação do servidor: " ++ e.Error)
          (obterCotacaoDoServidor env (start file)).2 := by
  unfold main
  generalize obterCotacaoDoServidor env (start file) = r at h ⊢
  obtain ⟨r1, r2⟩ := r
  simp only at h
  subst h
  rfl

/-- A run of the client whose fetch succeeds. -/
theorem main_of_ok (env : Env) (file : Option String) (v : String)
    (h : (obterCotacaoDoServidor env (start file)).1 = .ok v) :
    main env (start file)
      = match salvarCotacaoNoArquivo env v (obterCotacaoDoServidor env (start file)).2 with
        | (some err, wd2) => logFatalf ("Erro ao salvar cotação no arquivo: " ++ err.Error) wd2
        | (none, wd2) =>
          { wd2.emit (.logLine ("Cotação salva em " ++ arquivoCotacao ++ ": Dólar: " ++ v))
            with exit := some 0 } := by
  unfold main
  generalize obterCotacaoDoServidor env (start file) = r at h ⊢
  obtain ⟨r1, r2⟩ := r
  simp only at h
  subst h
  rfl

/-- Claim C5. For every bid string `v` the fetch returns and every previous
content of the output file (absent included), after a successful run of the
client the file `cotacao.txt` holds exactly `Dólar: ` followed by `v`,
nothing before or after it; a run ends with status 0 only in this way; and
for the server response of the specification, the object whose `bid` is
`5.43`, the file is exactly `Dólar: 5.43`. -/
theorem C5_file_content :
    (∀ (env : Env) (file : Option String) (v : String),
      (obterCotacaoDoServidor env (start file)).1 = .ok v → env.writeFile = .done →
        (main env (start file)).file = some ("Dólar: " ++ v) ∧
        (main env (start file)).exit = some 0) ∧
    (∀ (env : Env) (file : Option String),
      (main env (start file)).exit = some 0 →
        ∃ v, (obterCotacaoDoServidor env (start file)).1 = .ok v ∧
          (main env (start file)).file = some ("Dólar: " ++ v)) ∧
    (∀ (env : Env) (file : Option String) (t status : Nat),
      env.newRequest = none →
      env.roundTrip = .replies t status ⟨"\x7b\"bid\": \"5.43\"\x7d", none⟩ →
      t ≤ timeout → env.writeFile = .done →
        (main env (start file)).file = some "Dólar: 5.43") := by
  have part1 : ∀ (env : Env) (file : Option String) (v : String),
      (obterCotacaoDoServidor env (start file)).1 = .ok v → env.writeFile = .done →
        (main env (start file)).file = some ("Dólar: " ++ v) ∧
        (main env (start file)).exit = some 0 := by
    intro env file v hv hw
    rw [main_of_ok env file v hv]
    simp [salvarCotacaoNoArquivo, hw, World.emit]
  refine ⟨part1, ?_, ?_⟩
  · intro env file hexit
    cases hr : (obterCotacaoDoServidor env (start file)).1 with
    | error e =>
      rw [main_of_error env file e hr] at hexit
      simp [logFatalf, World.emit] at hexit
    | ok v =>
      refine ⟨v, rfl, ?_⟩
      cases hw : env.writeFile with
      | done => exact (part1 env file v hr hw).1
      | fails e left =>
        rw [main_of_ok env file v hr] at hexit
        simp [salvarCotacaoNoArquivo, hw, logFatalf, World.emit] at hexit
  · intro env file t status hreq hnet ht hw
    have hu : unmarshalStringMap "\x7b\"bid\": \"5.43\"\x7d" = .ok (some [("bid", "5.43")]) := by
      rfl
    have hv : (obterCotacaoDoServidor env (start file)).1 = .ok "5.43" := by
      simp only [obterCotacaoDoServidor, hreq, Server.clientDo, hnet, ht, if_true, readAll, hu]
      rfl
    exact (part1 env file "5.43" hv hw).1

/-- Claim C6. Whenever `obterCotacaoDoServidor` fails, the client ends
fatally (exit status 1) without calling `salvarCotacaoNoArquivo`, so the
output file is exactly as before the run, absent if it was absent; and each
cause (request construction, network failure, the 300 ms deadline, a body
read error, a JSON decoding error) makes `obterCotacaoDoServidor` fail. -/
theorem C6_fetch_failure_keeps_file :
    (∀ (env : Env) (file : Option String) (e : GoError),
      (obterCotacaoDoServidor env (start file)).1 = .error e →
        (main env (start file)).exit = some 1 ∧
        (main env (start file)).file = file ∧
        ∀ n x p, Effect.writeFile n x p ∉ (main env (start file)).trace) ∧
    (∀ (env : Env) (wd : World) (e : GoError),
      env.newRequest = some e → (obterCotacaoDoServidor env wd).1 = .error e) ∧
    (∀ (env : Env) (wd : World) (e : GoError),
      env.newRequest = none → env.roundTrip = .fails e →
        (obterCotacaoDoServidor env wd).1 = .error (.urlError "Get" serverURL e)) ∧
    (∀ (env : Env) (wd : World) (t status : Nat) (b : Body),
      env.newRequest = none → env.roundTrip = .replies t status b → timeout < t →
        (obterCotacaoDoServidor env wd).1
          = .error (.urlError "Get" serverURL .deadlineExceeded)) ∧
    (∀ (env : Env) (wd : World) (t status : Nat) (b : Body) (e : GoError),
      env.newRequest = none → env.roundTrip = .replies t status b → t ≤ timeout →
        b.failure = some e → (obterCotacaoDoServidor env wd).1 = .error e) ∧
    (∀ (env : Env) (wd : World) (t status : Nat) (b : Body) (e : GoError),
      env.newRequest = none → env.roundTrip = .replies t status b → t ≤ timeout →
        b.failure = none → unmarshalStringMap b.text = .error e →
        (obterCotacaoDoServidor env wd).1 = .error e) := by
  refine ⟨?_, ?_, ?_, ?_, ?_, ?_⟩
  · intro env file e he
    rw [main_of_error env file e he]
    obtain ⟨-, h2, -, h4⟩ := obterCotacaoDoServidor_state env (start file) (start file)
    refine ⟨by simp [logFatalf, World.emit], ?_, ?_⟩
    · simpa [logFatalf, World.emit, start] using h2
    · intro n x p hmem
      simp only [logFatalf, World.emit, List.mem_append, List.mem_singleton, reduceCtorEq,
        or_false] at hmem
      have := h4 n x p hmem
      simp [start] at this
  · intro env wd e h
    simp [obterCotacaoDoServidor, h]
  · intro env wd e h1 h2
    simp [obterCotacaoDoServidor, h1, h2, Server.clientDo]
  · intro env wd t status b h1 h2 h3
    simp [obterCotacaoDoServidor, h1, h2, Server.clientDo, Nat.not_le.mpr h3]
  · intro env wd t status b e h1 h2 h3 h4
    simp [obterCotacaoDoServidor, h1, h2, Server.clientDo, h3, readAll, h4]
  · intro env wd t status b e h1 h2 h3 h4 h5
    simp [obterCotacaoDoServidor, h1, h2, Server.clientDo, h3, readAll, h4, h5]

/-- Claim C9. Round trip between server and client: for every bid string `v`
(any text: quotes, backslashes, control characters, the HTML characters,
non-ASCII) and either way of escaping backspace and form feed, the body
`cotacaoHandler` writes on success, the JSON encoding of the one-entry map
with key `bid` followed by a line feed, is decoded by `json.Unmarshal` into a
string map without error, and the lookup of `bid` gives exactly `v`; so a
client that receives the body of a successful request writes `Dólar: `
followed by the very text the server stored. -/
theorem C9_round_trip :
    (∀ (g : Bool) (v : String),
      unmarshalStringMap (encodeStringMap g [("bid", v)]) = .ok (some [("bid", v)]) ∧
      StringMap.get (some [("bid", v)]) "bid" = v) ∧
    (∀ (senv : Server.Env) (db : Server.Database) (h : Nat) (c : String) (cenv : Env)
      (file : Option String) (t status : Nat),
      senv.sqlOpen = .ok h → (Server.obterCotacao senv (Server.request db)).1 = .ok c →
      (Server.salvarCotacao senv h c (Server.request db)).1 = none →
      cenv.newRequest = none →
      cenv.roundTrip
        = .replies t status ⟨(Server.cotacaoHandler senv (Server.request db)).w.body, none⟩ →
      t ≤ timeout → cenv.writeFile = .done →
        (obterCotacaoDoServidor cenv (start file)).1 = .ok c ∧
        (main cenv (start file)).file = some ("Dólar: " ++ c) ∧
        ∃ row, (Server.cotacaoHandler senv (Server.request db)).db.cotacoes
            = db.cotacoes ++ [row] ∧ row.valor = c) := by
  have hget : ∀ v : String, StringMap.get (some [("bid", v)]) "bid" = v := by
    intro v
    simp [StringMap.get]
  refine ⟨fun g v => ⟨unmarshal_encode g "bid" v, hget v⟩, ?_⟩
  intro senv db h c cenv file t status hopen hfetch hsave hreq hnet ht hw
  obtain ⟨-, hbody, now, hrows⟩ := Server.handler_success senv db h c hopen hfetch hsave
  have hv : (obterCotacaoDoServidor cenv (start file)).1 = .ok c := by
    simp only [obterCotacaoDoServidor, hreq, Server.clientDo, hnet, ht, if_true, readAll, hbody,
      unmarshal_encode, hget]
  refine ⟨hv, ?_, ⟨_, hrows, rfl⟩⟩
  rw [main_of_ok cenv file c hv]
  simp [salvarCotacaoNoArquivo, hw, World.emit]

/-- Claim C8, as amended. With the deadlines fixed in the code (server
upstream call 200 ms, server insert 10 ms, client call 300 ms), every
upstream response time within the deadline of the server is within the
deadline of the client too, even with the whole insert deadline added to it:
a head that the call of the server accepts would be accepted by a call under
the deadline of the client as well. -/
theorem C8_deadlines (t : Nat) (h : t ≤ Server.timeoutHttp) :
    t < timeout ∧ t + Server.timeoutDb < timeout ∧
    Server.timeoutHttp = 200000000 ∧ Server.timeoutDb = 10000000 ∧ timeout = 300000000 ∧
    ∀ (url : String) (status : Nat) (b : Body),
      Server.clientDo url Server.timeoutHttp (.replies t status b) = .ok (status, b) ∧
      Server.clientDo url timeout (.replies t status b) = .ok (status, b) := by
  have h1 : Server.timeoutHttp = 200000000 := by decide
  have h2 : Server.timeoutDb = 10000000 := by decide
  have h3 : timeout = 300000000 := by decide
  rw [h1] at h
  refine ⟨by omega, by omega, h1, h2, h3, ?_⟩
  intro url status b
  have h4 : t ≤ Server.timeoutHttp := by omega
  have h5 : t ≤ timeout := by omega
  simp [Server.clientDo, h4, h5]

/-- Claim C8 as stated fails: no response time is within the upstream
deadline of the server and beyond the deadline of the client. -/
theorem C8_counterexample :
    ¬ ∃ t : Nat, t ≤ Server.timeoutHttp ∧ t > timeout := by
  rintro ⟨t, h1, h2⟩
  have e1 : Server.timeoutHttp = 200000000 := by decide
  have e3 : timeout = 300000000 := by decide
  omega

end Client

namespace Server

open Json

/-- Claim C1 as stated fails: three upstream bodies that are valid JSON with
the string `5.43` at `USDBRL.bid`, the database open and the insert ready to
complete. With a number under the field name `ask` the decoder returns a
type error, and the handler answers 500 and stores nothing; with a later
member `Bid`, or a later member `usdbrl`, the decoder takes the later value,
and the handler serves and stores `9.99`. -/
theorem C1_counterexample :
    (scanText numericAskBody.text.data
        = .ok (.obj [("USDBRL", .obj [("code", .str "USD"), ("bid", .str "5.43"),
            ("ask", .num [Char.ofNat 53, Char.ofNat 46, Char.ofNat 52, Char.ofNat 52])])]) [] ∧
      (obterCotacao numericAskEnv (request sampleDb)).1
        = .error (.typeMismatch "number" "string") ∧
      (cotacaoHandler numericAskEnv (request sampleDb)).w.status = some 500 ∧
      (cotacaoHandler numericAskEnv (request sampleDb)).db = sampleDb) ∧
    (scanText secondBidBody.text.data
        = .ok (.obj [("USDBRL", .obj [("bid", .str "5.43"), ("Bid", .str "9.99")])]) [] ∧
      (cotacaoHandler secondBidEnv (request sampleDb)).w.status = some 200 ∧
      (cotacaoHandler secondBidEnv (request sampleDb)).w.body
        = "\x7b\"bid\":\"9.99\"\x7d\n" ∧
      (cotacaoHandler secondBidEnv (request sampleDb)).db.cotacoes
        = sampleDb.cotacoes ++ [⟨2, "9.99", 1700000600⟩]) ∧
    (scanText secondUsdbrlBody.text.data
        = .ok (.obj [("USDBRL", .obj [("bid", .str "5.43")]),
            ("usdbrl", .obj [("bid", .str "9.99")])]) [] ∧
      (cotacaoHandler secondUsdbrlEnv (request sampleDb)).w.status = some 200 ∧
      (cotacaoHandler secondUsdbrlEnv (request sampleDb)).w.body
        = "\x7b\"bid\":\"9.99\"\x7d\n" ∧
      (cotacaoHandler secondUsdbrlEnv (request sampleDb)).db.cotacoes
        = sampleDb.cotacoes ++ [⟨2, "9.99", 1700000600⟩]) :=
  ⟨⟨rfl, rfl, by decide, by decide⟩, ⟨rfl, by decide, by decide, by decide⟩,
    ⟨rfl, by decide, by decide, by decide⟩⟩

/-- Witness of C1 as amended on `sampleEnv`: the sample body has the accepted
bid `5.43`, and the request answers 200 and stores one more row. -/
theorem C1_quote_served_witness :
    (readValue sampleBody = .ok sampleValue ∧ acceptedBid sampleValue = some "5.43") ∧
    (cotacaoHandler sampleEnv (request sampleDb)).w.status = some 200 ∧
    (cotacaoHandler sampleEnv (request sampleDb)).w.headerGet "Content-Type"
      = some "application/json" ∧
    (cotacaoHandler sampleEnv (request sampleDb)).w.body
      = encodeStringMap sampleEnv.go122 [("bid", "5.43")] ∧
    scanText (cotacaoHandler sampleEnv (request sampleDb)).w.body.data
      = .ok (.obj [("bid", .str "5.43")]) [Char.ofNat 10] ∧
    (cotacaoHandler sampleEnv (request sampleDb)).db.cotacoes
      = sampleDb.cotacoes ++ [⟨sampleDb.nextId, "5.43", 1700000600⟩] ∧
    (cotacaoHandler sampleEnv (request sampleDb)).db.cotacoes.length
      = sampleDb.cotacoes.length + 1 :=
  ⟨⟨rfl, rfl⟩,
    C1_quote_served sampleEnv sampleDb 1 200 (millisecond * 2) 1700000600
      sampleBody sampleValue "5.43" rfl rfl rfl rfl rfl rfl (by decide)⟩

/-- Witness of C2 on `slowUpstreamEnv`: the upstream answers after 250 ms,
the fetch fails on the deadline and the request answers 500. -/
theorem C2_fetch_failure_witness :
    (obterCotacao slowUpstreamEnv (request sampleDb)).1
      = .error (.urlError "Get" endpointCambio .deadlineExceeded) ∧
    (cotacaoHandler slowUpstreamEnv (request sampleDb)).w.status = some 500 ∧
    (cotacaoHandler slowUpstreamEnv (request sampleDb)).w.body
      = (GoError.urlError "Get" endpointCambio .deadlineExceeded).Error ++ "\n" ∧
    (∀ d q a dl, Effect.execContext d q a dl
      ∉ (cotacaoHandler slowUpstreamEnv (request sampleDb)).trace) ∧
    (cotacaoHandler slowUpstreamEnv (request sampleDb)).db = sampleDb :=
  ⟨rfl, C2_fetch_failure.1 slowUpstreamEnv sampleDb 1 _ rfl rfl⟩

/-- Witness of C3 on `slowInsertEnv`: the insert takes 15 ms, and the
request answers 500 with the insert error in the body. -/
theorem C3_insert_failure_witness :
    (cotacaoHandler slowInsertEnv (request sampleDb)).w.status = some 500 ∧
    (cotacaoHandler slowInsertEnv (request sampleDb)).w.body
      = "Erro ao salvar na base de dados:context deadline exceeded\n" ∧
    Effect.writeHeader 200 ∉ (cotacaoHandler slowInsertEnv (request sampleDb)).trace :=
  have h := C3_insert_failure.1 slowInsertEnv sampleDb 1 "5.43" .deadlineExceeded rfl
    rfl (by decide)
  ⟨h.1, h.2.2.1, h.2.2.2.2.1⟩

/-- Witness of C4 on `noDatabaseEnv`. -/
theorem C4_connection_failure_witness :
    (cotacaoHandler noDatabaseEnv (request sampleDb)).w.status = some 500 ∧
    (cotacaoHandler noDatabaseEnv (request sampleDb)).w.body
      = "Erro ao conectar ao banco de dados\n" ∧
    (cotacaoHandler noDatabaseEnv (request sampleDb)).db = sampleDb :=
  have h := C4_connection_failure noDatabaseEnv sampleDb (.external "sql: unknown driver") rfl
  ⟨h.1, h.2.1, h.2.2.2.2.2.2⟩

/-- Witness of C7 on `sampleEnv`. -/
theorem C7_handle_closed_witness :
    (cotacaoHandler sampleEnv (request sampleDb)).trace.getLast? = some (Effect.dbClose 1) ∧
    (cotacaoHandler sampleEnv (request sampleDb)).trace.count (Effect.dbClose 1) = 1 :=
  have h := C7_handle_closed sampleEnv sampleDb 1 rfl
  ⟨h.1, h.2.1⟩

/-- Claim C10 as stated fails: the body of `numericBidBody` is a valid JSON
object holding no `USDBRL.bid` string (its `bid` is a number), yet
`obterCotacao` returns a type error, and with the database open and the
insert ready to succeed `cotacaoHandler` answers 500 and inserts nothing. -/
theorem C10_counterexample :
    scanText numericBidBody.text.data
      = .ok (.obj [("USDBRL", .obj [("bid",
          .num [Char.ofNat 53, Char.ofNat 46, Char.ofNat 52, Char.ofNat 51])])]) [] ∧
    (obterCotacao numericBidEnv (request sampleDb)).1
      = .error (.typeMismatch "number" "string") ∧
    (cotacaoHandler numericBidEnv (request sampleDb)).w.status = some 500 ∧
    (cotacaoHandler numericBidEnv (request sampleDb)).db = sampleDb :=
  ⟨rfl, rfl, by decide, by decide⟩

/-- Witness of C10 as amended on `errorObjectEnv`: an upstream error object
sent with status 404 is served as an empty quotation. -/
theorem C10_object_without_bid_witness :
    (readValue errorObjectBody = .ok errorObjectValue ∧
      objectWithoutBid errorObjectValue = true) ∧
    (obterCotacao errorObjectEnv (request sampleDb)).1 = .ok "" ∧
    (cotacaoHandler errorObjectEnv (request sampleDb)).w.status = some 200 ∧
    (cotacaoHandler errorObjectEnv (request sampleDb)).w.body = "\x7b\"bid\":\"\"\x7d\n" ∧
    (cotacaoHandler errorObjectEnv (request sampleDb)).db.cotacoes
      = sampleDb.cotacoes ++ [⟨sampleDb.nextId, "", 1700000600⟩] :=
  ⟨⟨rfl, rfl⟩,
    C10_object_without_bid errorObjectEnv sampleDb 1 404 (millisecond * 2)
      1700000600 errorObjectBody errorObjectValue rfl rfl rfl rfl rfl rfl (by decide)⟩

end Server

namespace Client

open Json

/-- Witness of C5 on `sampleEnv`, over a longer earlier content. -/
theorem C5_file_content_witness :
    (main sampleEnv (start (some "Dólar: 5.4321 (ontem)"))).file = some "Dólar: 5.43" ∧
    (main sampleEnv (start (some "Dólar: 5.4321 (ontem)"))).exit = some 0 :=
  C5_file_content.1 sampleEnv (some "Dólar: 5.4321 (ontem)") "5.43" rfl rfl

/-- Witness of C6 on `slowServerEnv`: the server answers after 350 ms, the
client exits with status 1 and the absent file stays absent. -/
theorem C6_fetch_failure_keeps_file_witness :
    (main slowServerEnv (start none)).exit = some 1 ∧
    (main slowServerEnv (start none)).file = none ∧
    ∀ n x p, Effect.writeFile n x p ∉ (main slowServerEnv (start none)).trace :=
  C6_fetch_failure_keeps_file.1 slowServerEnv none
    (.urlError "Get" serverURL .deadlineExceeded) rfl

/-- Witness of C9: the client fed with what the server wrote for
`Server.sampleEnv` writes the bid the server stored. -/
theorem C9_round_trip_witness :
    (obterCotacaoDoServidor (relayEnv Server.sampleEnv Server.sampleDb) (start none)).1
      = .ok "5.43" ∧
    (main (relayEnv Server.sampleEnv Server.sampleDb) (start none)).file
      = some ("Dólar: " ++ "5.43") ∧
    ∃ row, (Server.cotacaoHandler Server.sampleEnv (Server.request Server.sampleDb)).db.cotacoes
        = Server.sampleDb.cotacoes ++ [row] ∧ row.valor = "5.43" :=
  C9_round_trip.2 Server.sampleEnv Server.sampleDb 1 "5.43"
    (relayEnv Server.sampleEnv Server.sampleDb) none (Server.millisecond * 150) 200
    rfl rfl (by decide) rfl rfl (by decide) rfl

/-- Witness of C8 as amended at 200 ms, the whole deadline of the server. -/
theorem C8_deadlines_witness :
    Server.timeoutHttp < timeout ∧ Server.timeoutHttp + Server.timeoutDb < timeout :=
  have h := C8_deadlines Server.timeoutHttp (Nat.le_refl _)
  ⟨h.1, h.2.1⟩

end Client
end ClientServerApi

